import Mathlib

/-!
# GRANDPA vote-message validation (lib/grandpa/vote_message.go)

A shallow embedding of `Service.ValidateMessage`, `Service.checkForEquivocation`,
`Service.validateVote` and `validateMessageSignature`.

Conventions of the embedding.

* The Go method mutates the receiver `s *Service`; here every method takes the
  service and returns its result together with the service after the call.
* `(T, error)` results are `Except GoError T`; a bare `error` result is
  `Except GoError Unit`.
* A Go map `map[K]V` whose values are pointers or slices, and which the code only
  reads through `m[k] != nil`, is a function `K → Option V`: `none` stands for
  "the lookup yields nil" (key absent, or present with a nil value), `delete`
  writes `none`.
* `uint64` fields are natural numbers: the code only compares and copies them.
* The packages scale, crypto/ed25519, the block state and `State.pubkeyToVoter`
  are not part of the verified file; they are parameters (`Collaborators`), so
  every theorem holds for every behaviour of theirs, error returns included.
-/

namespace Grandpa

deriving instance DecidableEq for Except

/-- A block hash (`common.Hash`), as its bytes. -/
abbrev Hash := List Nat

/-- The fixed-size byte form of an ed25519 public key (`ed25519.PublicKeyBytes`),
the key type of the `votes` and `equivocations` maps. -/
abbrev PublicKeyBytes := List Nat

/-- The bytes of a signature (`ed25519.SignatureBytes`). -/
abbrev SignatureBytes := List Nat

/-- A parsed ed25519 public key (`*ed25519.PublicKey`), as its bytes. -/
abbrev PublicKey := List Nat

/-- The phase of a round a vote belongs to (the type of `VoteMessage.stage` and
`Service.subround`). -/
inductive Subround where
  | prevote
  | precommit
  | primaryPropose
  deriving DecidableEq, Repr

/-- The Go `error` values that `ValidateMessage` can return: the five sentinel
errors the file names, and any other error value handed back by a collaborator
(key parsing, encoding, verification, voter lookup, block state). -/
inductive GoError where
  | ErrInvalidSignature
  | ErrSetIDMismatch
  | ErrEquivocation
  | ErrBlockDoesNotExist
  | ErrDescendantNotFound
  | collaborator (code : Nat)
  deriving DecidableEq, Repr

/-- A vote: the block voted for. -/
structure Vote where
  hash : Hash
  number : Nat
  deriving DecidableEq, Repr

/-- Modelled from the spec: the constructor `NewVote(hash, number)` lives in a file
of the package that is not part of the verified sources; the spec's data model
gives a vote as exactly the pair of the block hash and the block number. -/
def NewVote (hash : Hash) (number : Nat) : Vote :=
  { hash := hash, number := number }

/-- The value that is encoded and signed. -/
structure FullVote where
  stage : Subround
  vote : Vote
  round : Nat
  setID : Nat
  deriving DecidableEq, Repr

/-- A vote with its signature and the signer's key bytes. -/
structure SignedMessage where
  hash : Hash
  number : Nat
  signature : SignatureBytes
  authorityID : PublicKeyBytes
  deriving DecidableEq, Repr

/-- The wire-level vote message. -/
structure VoteMessage where
  setID : Nat
  round : Nat
  stage : Subround
  message : SignedMessage
  deriving DecidableEq, Repr

/-- One entry of the authority set. -/
structure Voter where
  key : PublicKey
  id : Nat
  deriving DecidableEq, Repr

/-- The part of `s.state` that the file reads. -/
structure State where
  setID : Nat
  round : Nat
  deriving DecidableEq, Repr

/-- The code this file calls but does not define. Every field is an arbitrary
function, so nothing is assumed about it beyond its Go signature. -/
structure Collaborators where
  /-- the constructor `ed25519.NewPublicKey(bytes)` -/
  NewPublicKey : PublicKeyBytes → Except GoError PublicKey
  /-- the method `(*ed25519.PublicKey).AsBytes()` -/
  AsBytes : PublicKey → PublicKeyBytes
  /-- the method `(*ed25519.PublicKey).Verify(msg, sig)` -/
  Verify : PublicKey → List Nat → SignatureBytes → Except GoError Bool
  /-- the function `scale.Encode` at a `*FullVote` -/
  Encode : FullVote → Except GoError (List Nat)
  /-- the method `(*State).pubkeyToVoter(pk)` -/
  pubkeyToVoter : State → PublicKey → Except GoError Voter
  /-- the method `s.blockState.HasHeader(hash)` -/
  HasHeader : Hash → Except GoError Bool
  /-- the method `s.blockState.IsDescendantOf(parent, child)` -/
  IsDescendantOf : Hash → Hash → Except GoError Bool

/-- The fields of `Service` that the file reads or writes. -/
structure Service where
  state : State
  subround : Subround
  votes : PublicKeyBytes → Option Vote
  equivocations : PublicKeyBytes → Option (List Vote)
  head : Hash

/-- The function `validateMessageSignature(pk, m)`. -/
def validateMessageSignature (c : Collaborators) (pk : PublicKey) (m : VoteMessage) :
    Except GoError Unit :=
  match c.Encode
      { stage := m.stage
        vote := NewVote m.message.hash m.message.number
        round := m.round
        setID := m.setID } with
  | .error err => .error err
  | .ok msg =>
    match c.Verify pk msg m.message.signature with
    | .error err => .error err
    | .ok ok =>
      if !ok then .error GoError.ErrInvalidSignature
      else .ok ()

/-- The method `Service.validateVote(v)`. -/
def validateVote (c : Collaborators) (s : Service) (v : Vote) : Except GoError Unit :=
  match c.HasHeader v.hash with
  | .error err => .error err
  | .ok has =>
    if !has then .error GoError.ErrBlockDoesNotExist
    else
      match c.IsDescendantOf s.head v.hash with
      | .error err => .error err
      | .ok isDescendant =>
        if !isDescendant then .error GoError.ErrDescendantNotFound
        else .ok ()

/-- The method `Service.checkForEquivocation(voter, vote)`: the returned flag and
the service after the call. -/
def checkForEquivocation (c : Collaborators) (s : Service) (voter : Voter) (vote : Vote) :
    Bool × Service :=
  let v := c.AsBytes voter.key
  match s.equivocations v with
  | some eqs =>
    (true, { s with equivocations := Function.update s.equivocations v (some (eqs ++ [vote])) })
  | none =>
    match s.votes v with
    | some prev =>
      (true,
        { s with
          equivocations := Function.update s.equivocations v (some [prev, vote])
          votes := Function.update s.votes v none })
    | none => (false, s)

/-- The method `Service.ValidateMessage(m)`: the returned `(*Vote, error)` pair
(an error means the vote pointer is nil) and the service after the call. -/
def ValidateMessage (c : Collaborators) (s : Service) (m : VoteMessage) :
    Except GoError Vote × Service :=
  match c.NewPublicKey m.message.authorityID with
  | .error err => (.error err, s)
  | .ok pk =>
    match validateMessageSignature c pk m with
    | .error err => (.error err, s)
    | .ok _ =>
      if m.setID ≠ s.state.setID then (.error GoError.ErrSetIDMismatch, s)
      else
        match c.pubkeyToVoter s.state pk with
        | .error err => (.error err, s)
        | .ok voter =>
          let vote := NewVote m.message.hash m.message.number
          let r := checkForEquivocation c s voter vote
          if r.1 then (.error GoError.ErrEquivocation, r.2)
          else
            match validateVote c r.2 vote with
            | .error err => (.error err, r.2)
            | .ok _ =>
              (.ok vote, { r.2 with votes := Function.update r.2.votes (c.AsBytes pk) (some vote) })

/-- The service after handling the messages `ms` one after the other with
`ValidateMessage`, whatever each call returns. -/
def runMessages (c : Collaborators) (s : Service) : List VoteMessage → Service
  | [] => s
  | m :: ms => runMessages c (ValidateMessage c s m).2 ms

/-- The `FullVote` literal that `validateMessageSignature` builds from the fields
of `m` and encodes. -/
def signedFullVote (m : VoteMessage) : FullVote :=
  { stage := m.stage
    vote := NewVote m.message.hash m.message.number
    round := m.round
    setID := m.setID }

/-- The message `m` is a validly signed message of the voter with key bytes `v`
for the current set: its authority id parses to the key `pk`, its signature
verifies under `pk` against the encoding `msg` of its `FullVote`, its set id is
the service's, the voter lookup answers `voter`, and both the voter's key and the
signer's key have the bytes `v`. -/
structure SignedByVoter (c : Collaborators) (s : Service) (m : VoteMessage)
    (v : PublicKeyBytes) (pk : PublicKey) (voter : Voter) (msg : List Nat) : Prop where
  parsed : c.NewPublicKey m.message.authorityID = .ok pk
  encoded : c.Encode (signedFullVote m) = .ok msg
  verified : c.Verify pk msg m.message.signature = .ok true
  sameSet : m.setID = s.state.setID
  isVoter : c.pubkeyToVoter s.state pk = .ok voter
  voterKey : c.AsBytes voter.key = v
  signerKey : c.AsBytes pk = v

/-- The invariant of the data model: no key has an entry in both `votes` and
`equivocations`. -/
def DisjointMaps (s : Service) : Prop :=
  ∀ k, s.votes k = none ∨ s.equivocations k = none

/-- The invariant of the data model: every entry of `equivocations` holds at least
two votes. -/
def EquivocationsPaired (s : Service) : Prop :=
  ∀ k eqs, s.equivocations k = some eqs → 2 ≤ eqs.length

/-- The first vote of the entry `eqs` that the key `k` has in `equivocations` after
the messages `ms` is the vote that `k` held in `votes` before: either the entry
existed before the first message and has kept its first vote, or one call of the
run found `k` with the vote `prev` in `votes` and without an entry in
`equivocations`, created the entry `[prev, w]` and removed `k` from `votes`, and
`prev` is still the first vote of `eqs`. -/
def HeadIsFormerVote (c : Collaborators) (s : Service) (ms : List VoteMessage)
    (k : PublicKeyBytes) (eqs : List Vote) : Prop :=
  (∃ eqs0, s.equivocations k = some eqs0 ∧ eqs.head? = eqs0.head?) ∨
    (s.equivocations k = none ∧
      ∃ ms1 m ms2 prev w, ms = ms1 ++ m :: ms2 ∧
        (runMessages c s ms1).votes k = some prev ∧
        (runMessages c s ms1).equivocations k = none ∧
        (runMessages c s (ms1 ++ [m])).votes k = none ∧
        (runMessages c s (ms1 ++ [m])).equivocations k = some [prev, w] ∧
        eqs.head? = some prev)

/-! ## A small concrete instance

A toy signature scheme (the signature of `msg` under the key `pk` is `pk ++ msg`),
three authorities and a four-block chain, to evaluate the functions on. -/

/-- The numeric tag of a subround in the sample encoding. -/
def sampleStageTag : Subround → Nat
  | .prevote => 0
  | .precommit => 1
  | .primaryPropose => 2

/-- The sample encoding of a `FullVote`. -/
def sampleEncode (fv : FullVote) : List Nat :=
  [sampleStageTag fv.stage, fv.vote.number, fv.round, fv.setID] ++ fv.vote.hash

/-- The keys of the sample authority set. -/
def sampleVoters : List PublicKey := [[1], [2], [3]]

/-- Sample collaborators: keys are non-empty byte strings, the authority set is
`sampleVoters`, the blocks `[10]`, `[11]`, `[12]` exist, block `[13]` exists on
another fork, and `[11]`, `[12]` descend from `[10]`. -/
def sampleCollaborators : Collaborators where
  NewPublicKey := fun b => if b = [] then .error (GoError.collaborator 1) else .ok b
  AsBytes := fun pk => pk
  Verify := fun pk msg sig => .ok (decide (sig = pk ++ msg))
  Encode := fun fv => .ok (sampleEncode fv)
  pubkeyToVoter := fun _ pk =>
    if pk ∈ sampleVoters then .ok { key := pk, id := sampleVoters.indexOf pk }
    else .error (GoError.collaborator 2)
  HasHeader := fun h => .ok (decide (h ∈ [[10], [11], [12], [13]]))
  IsDescendantOf := fun a h => .ok (decide (a = [10] ∧ h ∈ [[11], [12]]))

/-- A service in round 1 of set 0 with no vote received. -/
def sampleService : Service where
  state := { setID := 0, round := 1 }
  subround := Subround.prevote
  votes := fun _ => none
  equivocations := fun _ => none
  head := [10]

/-- The vote for block `[11]`. -/
def sampleVote11 : Vote := { hash := [11], number := 1 }

/-- The vote for block `[12]`. -/
def sampleVote12 : Vote := { hash := [12], number := 2 }

/-- The sample service after voter `[1]` voted for block `[11]`. -/
def sampleServiceVoted : Service :=
  { sampleService with votes := Function.update sampleService.votes [1] (some sampleVote11) }

/-- The sample service after voter `[1]` equivocated on blocks `[11]` and `[12]`. -/
def sampleServiceEquivocated : Service :=
  { sampleService with
    equivocations :=
      Function.update sampleService.equivocations [1] (some [sampleVote11, sampleVote12]) }

/-- A prevote message of the sample scheme: round 1, set `setID`, signed by `key`
for the block `hash` with number `number`. -/
def sampleMessage (setID : Nat) (key : PublicKey) (hash : Hash) (number : Nat) : VoteMessage where
  setID := setID
  round := 1
  stage := Subround.prevote
  message :=
    { hash := hash
      number := number
      signature := key ++ [0, number, 1, setID] ++ hash
      authorityID := key }

/-- A message carrying the signature of `sampleMessage` with its first byte
changed. -/
def sampleForgedMessage (setID : Nat) (key : PublicKey) (hash : Hash) (number : Nat) :
    VoteMessage :=
  let m := sampleMessage setID key hash number
  { m with message := { m.message with signature := 255 :: m.message.signature.tail } }

/-! ## Vote creation (`Service.CreateVoteMessage`) -/

/-- A block header (`types.Header`), with the fields the sources set. -/
structure Header where
  ParentHash : Hash
  Number : Int
  StateRoot : Hash
  deriving DecidableEq, Repr

/-- A key pair behind the interface `crypto.Keypair`, of any scheme: the methods
`Sign` and `Public` that `CreateVoteMessage` calls, and whether the key that
`Public` returns has the dynamic type `*ed25519.PublicKey`. -/
structure Keypair where
  /-- the method `kp.Sign(msg)` -/
  Sign : List Nat → Except GoError (List Nat)
  /-- the key `kp.Public()` returns, as its bytes -/
  Public : PublicKey
  /-- whether the type assertion `kp.Public().(*ed25519.PublicKey)` holds -/
  PublicIsEd25519 : Bool

/-- How a call of `CreateVoteMessage` ends: it returns a message with a nil error,
it returns a nil message with an error, or the Go run time stops it with a panic
(the unchecked type assertion on the public key fails). -/
inductive CreateOutcome where
  | returned (m : VoteMessage)
  | failed (err : GoError)
  | crashed
  deriving DecidableEq, Repr

/-- The code `CreateVoteMessage` calls besides that of `Collaborators`; again
arbitrary functions. -/
structure Authoring where
  /-- the function `NewVoteFromHeader(header)` -/
  NewVoteFromHeader : Header → Vote
  /-- the conversion `ed25519.NewSignatureBytes(sig)` to the fixed-size form -/
  NewSignatureBytes : List Nat → SignatureBytes

/-- The method `Service.CreateVoteMessage(header, kp)`. It does not write to the
service. After encoding and signing succeeded, the `SignedMessage` literal
evaluates the unchecked assertion `kp.Public().(*ed25519.PublicKey)`, which panics
for a key pair of another scheme. -/
def CreateVoteMessage (c : Collaborators) (a : Authoring) (s : Service) (header : Header)
    (kp : Keypair) : CreateOutcome :=
  let vote := a.NewVoteFromHeader header
  match c.Encode
      { stage := s.subround
        vote := vote
        round := s.state.round
        setID := s.state.setID } with
  | .error err => .failed err
  | .ok msg =>
    match kp.Sign msg with
    | .error err => .failed err
    | .ok sig =>
      if kp.PublicIsEd25519 then
        let sm : SignedMessage :=
          { hash := vote.hash
            number := vote.number
            signature := a.NewSignatureBytes sig
            authorityID := c.AsBytes kp.Public }
        .returned
          { setID := s.state.setID
            round := s.state.round
            stage := s.subround
            message := sm }
      else .crashed

/-- The voter lookup and the block state never hand back the sentinel errors
`ErrInvalidSignature` and `ErrSetIDMismatch` of the signature and set-id checks. -/
def SentinelFree (c : Collaborators) : Prop :=
  (∀ st pk e, c.pubkeyToVoter st pk = .error e →
      e ≠ GoError.ErrInvalidSignature ∧ e ≠ GoError.ErrSetIDMismatch) ∧
    (∀ h e, c.HasHeader h = .error e →
      e ≠ GoError.ErrInvalidSignature ∧ e ≠ GoError.ErrSetIDMismatch) ∧
    (∀ a h e, c.IsDescendantOf a h = .error e →
      e ≠ GoError.ErrInvalidSignature ∧ e ≠ GoError.ErrSetIDMismatch)

/-! ## Predicates on votes and ballots -/

/-- The block of the vote `w` exists and descends from the head of `s`: both
queries of `validateVote` answer true without error. -/
def VoteValidated (c : Collaborators) (s : Service) (w : Vote) : Prop :=
  c.HasHeader w.hash = .ok true ∧ c.IsDescendantOf s.head w.hash = .ok true

/-- Every vote held in `votes` is for an existing block that descends from head. -/
def VotesValidated (c : Collaborators) (s : Service) : Prop :=
  ∀ k w, s.votes k = some w → VoteValidated c s w

/-- The message `m` is a validly signed message of the voter with key bytes `v`
for the current set (`SignedByVoter`), and its block exists and descends from
head. -/
def ValidBallot (c : Collaborators) (s : Service) (m : VoteMessage) (v : PublicKeyBytes) :
    Prop :=
  (∃ pk voter msg, SignedByVoter c s m v pk voter msg) ∧
    VoteValidated c s (NewVote m.message.hash m.message.number)

/-- What `ValidateMessage` does to the maps for a valid ballot of the key `v`
carrying the vote `w`: append to an existing entry of `equivocations`, else turn
an existing entry of `votes` into an entry of `equivocations`, else insert the
vote. -/
def recordVote (s : Service) (v : PublicKeyBytes) (w : Vote) : Service :=
  match s.equivocations v with
  | some eqs => { s with equivocations := Function.update s.equivocations v (some (eqs ++ [w])) }
  | none =>
    match s.votes v with
    | some prev =>
      { s with
        equivocations := Function.update s.equivocations v (some [prev, w])
        votes := Function.update s.votes v none }
    | none => { s with votes := Function.update s.votes v (some w) }

/-- The messages of a list of ballots, each paired with the key bytes of its
voter. -/
def ballotMessages (bs : List (PublicKeyBytes × VoteMessage)) : List VoteMessage :=
  bs.map Prod.snd

/-! ## More of the concrete instance -/

/-- A message of the sample scheme with every field chosen: stage `stage`, round
`round`, set `setID`, signed by `key` for the block `hash` with number `number`. -/
def sampleStageMessage (stage : Subround) (round setID : Nat) (key : PublicKey) (hash : Hash)
    (number : Nat) : VoteMessage where
  setID := setID
  round := round
  stage := stage
  message :=
    { hash := hash
      number := number
      signature := key ++ [sampleStageTag stage, number, round, setID] ++ hash
      authorityID := key }

/-- The sample key pair of the key `key`: the signature of `msg` is `key ++ msg`. -/
def sampleKeypair (key : PublicKey) : Keypair where
  Sign := fun msg => .ok (key ++ msg)
  Public := key
  PublicIsEd25519 := true

/-- A sample key pair of another scheme (sr25519) for the key `key`: it signs like
`sampleKeypair`, but its public key is no `*ed25519.PublicKey`. -/
def sampleSr25519Keypair (key : PublicKey) : Keypair where
  Sign := fun msg => .ok (key ++ msg)
  Public := key
  PublicIsEd25519 := false

/-- Sample authoring code: the vote of a header is for the hash `[n]` and the
number `n` of a header with number `n`, and signatures keep their bytes. -/
def sampleAuthoring : Authoring where
  NewVoteFromHeader := fun h => { hash := [h.Number.toNat], number := h.Number.toNat }
  NewSignatureBytes := fun sig => sig

/-- The header of the sample block `[12]`. -/
def sampleHeader12 : Header := { ParentHash := [10], Number := 12, StateRoot := [] }

end Grandpa

/-! # Key types (lib/keystore/helpers.go) -/

namespace Keystore

/-- The values of `crypto.KeyType` named in the file. The type is declared in
lib/crypto, outside the verified sources, as a string type with one distinct
constant per name; the constants are the constructors here. -/
inductive KeyType where
  | Sr25519Type
  | Ed25519Type
  | Secp256k1Type
  | UnknownType
  deriving DecidableEq, Repr

/-- The function `DetermineKeyType(t)`. -/
def DetermineKeyType (t : String) : KeyType :=
  if t = "babe" then KeyType.Sr25519Type
  else if t = "gran" then KeyType.Ed25519Type
  else if t = "acco" then KeyType.Sr25519Type
  else if t = "aura" then KeyType.Sr25519Type
  else if t = "imon" then KeyType.Sr25519Type
  else if t = "audi" then KeyType.Sr25519Type
  else if t = "dumy" then KeyType.Sr25519Type
  else KeyType.UnknownType

/-- The string value of each `crypto.KeyType` constant. The constants are declared
in lib/crypto, outside the verified sources; `GenerateKeypair` compares its
`keytype` string with them. -/
def KeyType.name : KeyType → String
  | .Sr25519Type => "sr25519"
  | .Ed25519Type => "ed25519"
  | .Secp256k1Type => "secp256k1"
  | .UnknownType => "unknown"

/-- How a call ends: it returns a value with a nil error, it returns a non-nil
error with the given message, or the Go run time stops it with a panic (an index
out of range, a method call on a nil interface). -/
inductive Outcome (α : Type) where
  | returned (a : α)
  | failed (msg : String)
  | crashed (what : String)
  deriving DecidableEq, Repr

/-- A private key behind the interface `crypto.PrivateKey`, by its dynamic type. -/
inductive PrivateKey where
  | sr25519 (bytes : List Nat)
  | ed25519 (bytes : List Nat)
  | secp256k1 (bytes : List Nat)
  | other (bytes : List Nat)
  deriving DecidableEq, Repr

/-- A key pair behind the interface `crypto.Keypair`: its scheme, the encoding of
its public key and its private key. A nil `crypto.Keypair` is `none` of
`Option Keypair`. -/
structure Keypair where
  scheme : KeyType
  publicEncoded : List Nat
  Private : PrivateKey
  deriving DecidableEq, Repr

/-- The code the key-store helpers call but do not define; arbitrary functions.
Errors are their messages. The key generators are random, so each stands for the
result of the one call made. -/
structure Helpers where
  /-- the function `utils.KeystoreDir(dir)` -/
  KeystoreDir : String → Except String String
  /-- the function `utils.KeystoreFiles(dir)` -/
  KeystoreFiles : String → Except String (List String)
  /-- the function `common.StringToInts(unlock)` -/
  StringToInts : String → Except String (List Int)
  /-- the call `strings.Split(password, ",")` -/
  SplitPasswords : String → List String
  /-- the function `ReadFromFileAndDecrypt(path, password)` -/
  ReadFromFileAndDecrypt : String → String → Except String PrivateKey
  /-- the functions `NewKeypairFromPrivate` of the three schemes -/
  NewKeypairFromPrivate : PrivateKey → Except String Keypair
  /-- the method `ks.Insert(kp)` on a key store holding the given key pairs -/
  Insert : List Keypair → Keypair → Except String (List Keypair)
  /-- the function `sr25519.GenerateKeypair()` -/
  sr25519GenerateKeypair : Except String Keypair
  /-- the function `ed25519.GenerateKeypair()` -/
  ed25519GenerateKeypair : Except String Keypair
  /-- the function `secp256k1.GenerateKeypair()` -/
  secp256k1GenerateKeypair : Except String Keypair
  /-- the functions `NewKeypairFromPrivateKeyString(key)` of the three schemes -/
  NewKeypairFromPrivateKeyString : KeyType → String → Except String Keypair
  /-- the call `hex.EncodeToString(pub)` -/
  hexEncodeToString : List Nat → String
  /-- the function `filepath.Abs(path)` -/
  Abs : String → Except String String
  /-- the function `EncryptAndWriteToFile(fp, priv, password)` -/
  EncryptAndWriteToFile : String → PrivateKey → List Nat → Except String Unit

/-- The function `PrivateKeyToKeypair(priv)`. -/
def PrivateKeyToKeypair (d : Helpers) (priv : PrivateKey) : Except String Keypair :=
  match priv with
  | .sr25519 _ => d.NewKeypairFromPrivate priv
  | .ed25519 _ => d.NewKeypairFromPrivate priv
  | .secp256k1 _ => d.NewKeypairFromPrivate priv
  | .other _ => .error "cannot decode key: invalid key type"

/-- The Go index expression `xs[i]` for an `int` index: `none` when the run time
panics with an index out of range, that is for a negative index and for an index
at or beyond the length. -/
def goIndex {α : Type} (xs : List α) (i : Int) : Option α :=
  if i < 0 then none else xs[i.toNat]?

/-- The loop `for i, idx := range indices` of `UnlockKeys`, from position `i` on,
with the key store `ks`: the outcome and the key store it leaves. -/
def unlockLoop (d : Helpers) (keyDir : String) (keyFiles passwords : List String) :
    Nat → List Int → List Keypair → Outcome Unit × List Keypair
  | _, [], ks => (.returned (), ks)
  | i, idx :: rest, ks =>
    if idx ≥ (keyFiles.length : Int) then
      (.failed ("invalid account index: " ++ toString idx), ks)
    else
      match goIndex keyFiles idx with
      | none => (.crashed "index out of range", ks)
      | some keyFile =>
        match passwords[i]? with
        | none => (.crashed "index out of range", ks)
        | some pw =>
          match d.ReadFromFileAndDecrypt (keyDir ++ "/" ++ keyFile) pw with
          | .error err =>
            (.failed ("failed to decrypt key file " ++ keyFile ++ ": " ++ err), ks)
          | .ok priv =>
            match PrivateKeyToKeypair d priv with
            | .error err =>
              (.failed ("failed to create keypair from private key " ++ toString idx ++ ": "
                ++ err), ks)
            | .ok kp =>
              match d.Insert ks kp with
              | .error err => (.failed ("failed to insert key in keystore: " ++ err), ks)
              | .ok ks2 => unlockLoop d keyDir keyFiles passwords (i + 1) rest ks2

/-- The function `UnlockKeys(ks, dir, unlock, password)`: the outcome and the key
store it leaves. -/
def UnlockKeys (d : Helpers) (ks : List Keypair) (dir unlock password : String) :
    Outcome Unit × List Keypair :=
  match d.KeystoreDir dir with
  | .error err => (.failed err, ks)
  | .ok keyDir =>
    match (if unlock ≠ "" then d.StringToInts unlock else .ok []) with
    | .error err => (.failed err, ks)
    | .ok indices =>
      let passwords := if password ≠ "" then d.SplitPasswords password else []
      if passwords.length ≠ indices.length then
        (.failed "number of passwords given does not match number of keys to unlock", ks)
      else
        match d.KeystoreFiles dir with
        | .error err => (.failed err, ks)
        | .ok keyFiles =>
          if keyFiles.length < indices.length then
            (.failed
              "number of accounts to unlock is greater than number of accounts in keystore",
              ks)
          else unlockLoop d keyDir keyFiles passwords 0 indices ks

/-- The key pair `GenerateKeypair` works with after its `if kp == nil` block: the
one given, a generated one, none at all when `keytype` is none of the three scheme
names, or the error of a failed generation. -/
def generateIfNil (d : Helpers) (keytype : String) (kp : Option Keypair) :
    Except String (Option Keypair) :=
  match kp with
  | some k => .ok (some k)
  | none =>
    if keytype = KeyType.Sr25519Type.name then
      match d.sr25519GenerateKeypair with
      | .error err => .error ("failed to generate sr25519 keypair: " ++ err)
      | .ok k => .ok (some k)
    else if keytype = KeyType.Ed25519Type.name then
      match d.ed25519GenerateKeypair with
      | .error err => .error ("failed to generate ed25519 keypair: " ++ err)
      | .ok k => .ok (some k)
    else if keytype = KeyType.Secp256k1Type.name then
      match d.secp256k1GenerateKeypair with
      | .error err => .error ("failed to generate secp256k1 keypair: " ++ err)
      | .ok k => .ok (some k)
    else .ok none

/-- The function `GenerateKeypair(keytype, kp, basepath, password)`. -/
def GenerateKeypair (d : Helpers) (keytype : String) (kp : Option Keypair) (basepath : String)
    (password : List Nat) : Outcome String :=
  let keytype := if keytype = "" then KeyType.Sr25519Type.name else keytype
  match generateIfNil d keytype kp with
  | .error msg => .failed msg
  | .ok kp =>
    match d.KeystoreDir basepath with
    | .error err => .failed ("failed to get keystore directory: " ++ err)
    | .ok keyPath =>
      match kp with
      | none => .crashed "nil pointer dereference"
      | some k =>
        let pub := d.hexEncodeToString k.publicEncoded
        match d.Abs (keyPath ++ "/" ++ pub ++ ".key") with
        | .error err => .failed ("failed to create absolute filepath: " ++ err)
        | .ok fp =>
          match d.EncryptAndWriteToFile fp k.Private password with
          | .error err => .failed ("failed to write key to file: " ++ err)
          | .ok _ => .returned fp

/-- The function `ImportRawPrivateKey(key, keytype, basepath, password)`. -/
def ImportRawPrivateKey (d : Helpers) (key keytype basepath : String) (password : List Nat) :
    Outcome String :=
  let keytype := if keytype = "" then KeyType.Sr25519Type.name else keytype
  if keytype = KeyType.Sr25519Type.name then
    match d.NewKeypairFromPrivateKeyString KeyType.Sr25519Type key with
    | .error err => .failed ("failed to import sr25519 keypair: " ++ err)
    | .ok kp => GenerateKeypair d keytype (some kp) basepath password
  else if keytype = KeyType.Ed25519Type.name then
    match d.NewKeypairFromPrivateKeyString KeyType.Ed25519Type key with
    | .error err => .failed ("failed to generate ed25519 keypair: " ++ err)
    | .ok kp => GenerateKeypair d keytype (some kp) basepath password
  else if keytype = KeyType.Secp256k1Type.name then
    match d.NewKeypairFromPrivateKeyString KeyType.Secp256k1Type key with
    | .error err => .failed ("failed to generate secp256k1 keypair: " ++ err)
    | .ok kp => GenerateKeypair d keytype (some kp) basepath password
  else GenerateKeypair d keytype none basepath password

/-- Sample helpers: one key file `a.key` in the key-store directory, every file
decrypts to an sr25519 key, indices are parsed for the strings "0", "5" and "-1",
passwords are not split, and every other call succeeds. -/
def sampleHelpers : Helpers where
  KeystoreDir := fun dir => .ok (dir ++ "/keystore")
  KeystoreFiles := fun _ => .ok ["a.key"]
  StringToInts := fun u =>
    if u = "0" then .ok [0]
    else if u = "5" then .ok [5]
    else if u = "-1" then .ok [-1]
    else .error "strconv.Atoi: invalid syntax"
  SplitPasswords := fun p => [p]
  ReadFromFileAndDecrypt := fun _ _ => .ok (PrivateKey.sr25519 [7])
  NewKeypairFromPrivate := fun priv =>
    .ok { scheme := KeyType.Sr25519Type, publicEncoded := [8], Private := priv }
  Insert := fun ks kp => .ok (ks ++ [kp])
  sr25519GenerateKeypair :=
    .ok { scheme := KeyType.Sr25519Type, publicEncoded := [1], Private := PrivateKey.sr25519 [1] }
  ed25519GenerateKeypair :=
    .ok { scheme := KeyType.Ed25519Type, publicEncoded := [2], Private := PrivateKey.ed25519 [2] }
  secp256k1GenerateKeypair :=
    .ok
      { scheme := KeyType.Secp256k1Type
        publicEncoded := [3]
        Private := PrivateKey.secp256k1 [3] }
  NewKeypairFromPrivateKeyString := fun t _ =>
    .ok { scheme := t, publicEncoded := [4], Private := PrivateKey.other [4] }
  hexEncodeToString := fun _ => "00"
  Abs := fun path => .ok path
  EncryptAndWriteToFile := fun _ _ _ => .ok ()

end Keystore

/-! # Node configuration (cmd/gossamer/config.go) -/

namespace Cmd

/-- The fields of `dot.CoreConfig` that `setDotCoreConfig` writes; `Roles` is a
byte. -/
structure CoreConfig where
  Authority : Bool
  Roles : Nat
  deriving DecidableEq, Repr

/-- The conversion `byte(b)` of a Go `int`: its low eight bits. -/
def byteOfInt (b : Int) : Nat :=
  (b % 256).toNat

/-- The function `setDotCoreConfig(ctx, cfg)`, as the configuration it leaves.
`roles` is the value `ctx.GlobalString(RolesFlag.Name)` and `Atoi` the function
`strconv.Atoi`; the log calls are left out. -/
def setDotCoreConfig (Atoi : String → Except String Int) (roles : String) (cfg : CoreConfig) :
    CoreConfig :=
  let cfg1 :=
    if roles ≠ "" then
      match Atoi roles with
      | .error _ => cfg
      | .ok b =>
        if byteOfInt b = 4 then { cfg with Authority := true }
        else if byteOfInt b > 4 then { cfg with Authority := false }
        else { cfg with Authority := false }
    else cfg
  if roles ≠ "" then
    match Atoi roles with
    | .error _ => cfg1
    | .ok b =>
      if byteOfInt b > 4 then cfg1
      else { cfg1 with Roles := byteOfInt b }
  else cfg1

/-- A sample of `strconv.Atoi` on a few decimal strings. -/
def sampleAtoi (t : String) : Except String Int :=
  if t = "4" then .ok 4
  else if t = "1" then .ok 1
  else if t = "260" then .ok 260
  else if t = "-252" then .ok (-252)
  else if t = "7" then .ok 7
  else .error "strconv.Atoi: invalid syntax"

end Cmd

namespace Grandpa

/-! ## Properties of the functions -/

theorem validateMessageSignature_ok (c : Collaborators) (pk : PublicKey) (m : VoteMessage)
    (msg : List Nat) (henc : c.Encode (signedFullVote m) = .ok msg)
    (hver : c.Verify pk msg m.message.signature = .ok true) :
    validateMessageSignature c pk m = .ok () := by
  unfold signedFullVote at henc
  simp [validateMessageSignature, henc, hver]

theorem checkForEquivocation_of_equivocated (c : Collaborators) (s : Service) (voter : Voter)
    (vote : Vote) (eqs : List Vote) (h : s.equivocations (c.AsBytes voter.key) = some eqs) :
    checkForEquivocation c s voter vote =
      (true, { s with
        equivocations :=
          Function.update s.equivocations (c.AsBytes voter.key) (some (eqs ++ [vote])) }) := by
  simp [checkForEquivocation, h]

theorem checkForEquivocation_of_voted (c : Collaborators) (s : Service) (voter : Voter)
    (vote prev : Vote) (he : s.equivocations (c.AsBytes voter.key) = none)
    (hv : s.votes (c.AsBytes voter.key) = some prev) :
    checkForEquivocation c s voter vote =
      (true, { s with
        equivocations := Function.update s.equivocations (c.AsBytes voter.key) (some [prev, vote])
        votes := Function.update s.votes (c.AsBytes voter.key) none }) := by
  simp [checkForEquivocation, he, hv]

theorem checkForEquivocation_of_fresh (c : Collaborators) (s : Service) (voter : Voter)
    (vote : Vote) (he : s.equivocations (c.AsBytes voter.key) = none)
    (hv : s.votes (c.AsBytes voter.key) = none) :
    checkForEquivocation c s voter vote = (false, s) := by
  simp [checkForEquivocation, he, hv]

/-- A message that passes the signature, set-id and voter checks is handled by
equivocation detection, then block validation, then insertion. -/
theorem ValidateMessage_of_signed (c : Collaborators) (s : Service) (m : VoteMessage)
    (v : PublicKeyBytes) (pk : PublicKey) (voter : Voter) (msg : List Nat)
    (h : SignedByVoter c s m v pk voter msg) :
    ValidateMessage c s m =
      if (checkForEquivocation c s voter (NewVote m.message.hash m.message.number)).1 then
        (.error GoError.ErrEquivocation,
          (checkForEquivocation c s voter (NewVote m.message.hash m.message.number)).2)
      else
        match validateVote c
            (checkForEquivocation c s voter (NewVote m.message.hash m.message.number)).2
            (NewVote m.message.hash m.message.number) with
        | .error err =>
          (.error err, (checkForEquivocation c s voter (NewVote m.message.hash m.message.number)).2)
        | .ok _ =>
          (.ok (NewVote m.message.hash m.message.number),
            { (checkForEquivocation c s voter (NewVote m.message.hash m.message.number)).2 with
              votes :=
                Function.update
                  (checkForEquivocation c s voter
                    (NewVote m.message.hash m.message.number)).2.votes v
                  (some (NewVote m.message.hash m.message.number)) }) := by
  have hsig := validateMessageSignature_ok c pk m msg h.encoded h.verified
  simp [ValidateMessage, h.parsed, hsig, h.sameSet, h.isVoter, h.signerKey]

/-- In the sample scheme a message built by `sampleMessage` for a key of the sample
authority set is a validly signed message of that voter. -/
theorem sampleMessage_signed (s : Service) (key : PublicKey) (hash : Hash) (number : Nat)
    (hkey : key ∈ sampleVoters) :
    SignedByVoter sampleCollaborators s (sampleMessage s.state.setID key hash number) key key
      { key := key, id := sampleVoters.indexOf key }
      (sampleEncode (signedFullVote (sampleMessage s.state.setID key hash number))) := by
  have hne : key ≠ [] := by
    rintro rfl
    simp [sampleVoters] at hkey
  constructor
  · simp [sampleCollaborators, sampleMessage, hne]
  · rfl
  · simp [sampleCollaborators, sampleMessage, sampleEncode, signedFullVote, NewVote,
      sampleStageTag]
  · rfl
  · simp [sampleCollaborators, hkey]
  · rfl
  · rfl

/-- The three outcomes of `checkForEquivocation`, by the entries of the voter's key
bytes in the two maps. -/
theorem checkForEquivocation_cases (c : Collaborators) (s : Service) (voter : Voter)
    (vote : Vote) :
    (∃ eqs, s.equivocations (c.AsBytes voter.key) = some eqs ∧
        checkForEquivocation c s voter vote =
          (true, { s with
            equivocations :=
              Function.update s.equivocations (c.AsBytes voter.key) (some (eqs ++ [vote])) })) ∨
      (∃ prev, s.equivocations (c.AsBytes voter.key) = none ∧
        s.votes (c.AsBytes voter.key) = some prev ∧
        checkForEquivocation c s voter vote =
          (true, { s with
            equivocations :=
              Function.update s.equivocations (c.AsBytes voter.key) (some [prev, vote])
            votes := Function.update s.votes (c.AsBytes voter.key) none })) ∨
      (s.equivocations (c.AsBytes voter.key) = none ∧ s.votes (c.AsBytes voter.key) = none ∧
        checkForEquivocation c s voter vote = (false, s)) := by
  cases he : s.equivocations (c.AsBytes voter.key) with
  | some eqs =>
    exact Or.inl ⟨eqs, rfl, checkForEquivocation_of_equivocated c s voter vote eqs he⟩
  | none =>
    cases hv : s.votes (c.AsBytes voter.key) with
    | some prev =>
      exact Or.inr (Or.inl ⟨prev, rfl, rfl, checkForEquivocation_of_voted c s voter vote prev he hv⟩)
    | none =>
      exact Or.inr (Or.inr ⟨rfl, rfl, checkForEquivocation_of_fresh c s voter vote he hv⟩)

/-- The three outcomes of `ValidateMessage`: an error with the service untouched; the
error `ErrEquivocation` with the service as `checkForEquivocation` left it; or the
vote, inserted under the signer's key bytes into an otherwise untouched service in
which the voter's key bytes had no entry in either map. -/
theorem ValidateMessage_cases (c : Collaborators) (s : Service) (m : VoteMessage) :
    (∃ e, ValidateMessage c s m = (.error e, s)) ∨
      (∃ pk voter, c.NewPublicKey m.message.authorityID = .ok pk ∧
        c.pubkeyToVoter s.state pk = .ok voter ∧
        (checkForEquivocation c s voter (NewVote m.message.hash m.message.number)).1 = true ∧
        ValidateMessage c s m =
          (.error GoError.ErrEquivocation,
            (checkForEquivocation c s voter (NewVote m.message.hash m.message.number)).2)) ∨
      (∃ pk voter, c.NewPublicKey m.message.authorityID = .ok pk ∧
        c.pubkeyToVoter s.state pk = .ok voter ∧
        s.equivocations (c.AsBytes voter.key) = none ∧ s.votes (c.AsBytes voter.key) = none ∧
        validateVote c s (NewVote m.message.hash m.message.number) = .ok () ∧
        ValidateMessage c s m =
          (.ok (NewVote m.message.hash m.message.number),
            { s with
              votes :=
                Function.update s.votes (c.AsBytes pk)
                  (some (NewVote m.message.hash m.message.number)) })) := by
  cases hpk : c.NewPublicKey m.message.authorityID with
  | error e => exact Or.inl ⟨e, by simp [ValidateMessage, hpk]⟩
  | ok pk =>
    cases hsig : validateMessageSignature c pk m with
    | error e => exact Or.inl ⟨e, by simp [ValidateMessage, hpk, hsig]⟩
    | ok u =>
      by_cases hset : m.setID = s.state.setID
      · cases hvoter : c.pubkeyToVoter s.state pk with
        | error e => exact Or.inl ⟨e, by simp [ValidateMessage, hpk, hsig, hset, hvoter]⟩
        | ok voter =>
          rcases checkForEquivocation_cases c s voter
              (NewVote m.message.hash m.message.number) with
            ⟨eqs, _, hc⟩ | ⟨prev, _, _, hc⟩ | ⟨he, hv, hc⟩
          · exact Or.inr (Or.inl ⟨pk, voter, rfl, hvoter, by rw [hc],
              by simp [ValidateMessage, hpk, hsig, hset, hvoter, hc]⟩)
          · exact Or.inr (Or.inl ⟨pk, voter, rfl, hvoter, by rw [hc],
              by simp [ValidateMessage, hpk, hsig, hset, hvoter, hc]⟩)
          · cases hvv : validateVote c s (NewVote m.message.hash m.message.number) with
            | error e =>
              exact Or.inl ⟨e, by simp [ValidateMessage, hpk, hsig, hset, hvoter, hc, hvv]⟩
            | ok u2 =>
              exact Or.inr (Or.inr ⟨pk, voter, rfl, hvoter, he, hv, rfl,
                by simp [ValidateMessage, hpk, hsig, hset, hvoter, hc, hvv]⟩)
      · exact Or.inl ⟨GoError.ErrSetIDMismatch, by simp [ValidateMessage, hpk, hsig, hset]⟩

/-- How one call of `ValidateMessage` changes the entry of a key `k` in
`equivocations`: not at all, by appending one vote to an existing entry, or by
creating the entry `[prev, w]` from the vote `prev` that `k` held in `votes`, which
is removed. -/
theorem ValidateMessage_equivocations (c : Collaborators) (s : Service) (m : VoteMessage)
    (k : PublicKeyBytes) :
    (ValidateMessage c s m).2.equivocations k = s.equivocations k ∨
      (∃ eqs w, s.equivocations k = some eqs ∧
        (ValidateMessage c s m).2.equivocations k = some (eqs ++ [w])) ∨
      (∃ prev w, s.equivocations k = none ∧ s.votes k = some prev ∧
        (ValidateMessage c s m).2.equivocations k = some [prev, w] ∧
        (ValidateMessage c s m).2.votes k = none) := by
  rcases ValidateMessage_cases c s m with ⟨e, h⟩ | ⟨pk, voter, _, _, _, h⟩ |
    ⟨pk, voter, _, _, _, _, _, h⟩
  · rw [h]
    exact Or.inl rfl
  · rw [h]
    by_cases hk : k = c.AsBytes voter.key
    · subst hk
      rcases checkForEquivocation_cases c s voter
          (NewVote m.message.hash m.message.number) with
        ⟨eqs, he, hc⟩ | ⟨prev, he, hv, hc⟩ | ⟨_, _, hc⟩
      · rw [hc]
        exact Or.inr (Or.inl ⟨eqs, NewVote m.message.hash m.message.number, he, by simp⟩)
      · rw [hc]
        exact Or.inr (Or.inr ⟨prev, NewVote m.message.hash m.message.number, he, hv, by simp,
          by simp⟩)
      · rw [hc]
        exact Or.inl rfl
    · rcases checkForEquivocation_cases c s voter
          (NewVote m.message.hash m.message.number) with
        ⟨eqs, _, hc⟩ | ⟨prev, _, _, hc⟩ | ⟨_, _, hc⟩
      · rw [hc]
        exact Or.inl (by simp [Function.update_noteq hk])
      · rw [hc]
        exact Or.inl (by simp [Function.update_noteq hk])
      · rw [hc]
        exact Or.inl rfl
  · rw [h]
    exact Or.inl rfl

/-- One call of `ValidateMessage` keeps the two maps disjoint, when the voter lookup
answers a voter whose key has the bytes of the signer's key. -/
theorem ValidateMessage_disjoint (c : Collaborators) (s : Service) (m : VoteMessage)
    (hlookup : ∀ st pk voter, c.pubkeyToVoter st pk = .ok voter →
      c.AsBytes voter.key = c.AsBytes pk)
    (hinv : DisjointMaps s) : DisjointMaps (ValidateMessage c s m).2 := by
  rcases ValidateMessage_cases c s m with ⟨e, h⟩ | ⟨pk, voter, _, _, _, h⟩ |
    ⟨pk, voter, _, hvoter, he, _, _, h⟩
  · rw [h]
    exact hinv
  · rw [h]
    intro k
    rcases checkForEquivocation_cases c s voter
        (NewVote m.message.hash m.message.number) with
      ⟨eqs, he, hc⟩ | ⟨prev, he, hv, hc⟩ | ⟨_, _, hc⟩
    · rw [hc]
      by_cases hk : k = c.AsBytes voter.key
      · subst hk
        rcases hinv (c.AsBytes voter.key) with hv | he2
        · exact Or.inl hv
        · rw [he2] at he
          cases he
      · rcases hinv k with hv | he2
        · exact Or.inl hv
        · exact Or.inr (by simp [Function.update_noteq hk, he2])
    · rw [hc]
      by_cases hk : k = c.AsBytes voter.key
      · subst hk
        exact Or.inl (by simp)
      · rcases hinv k with hv2 | he2
        · exact Or.inl (by simp [Function.update_noteq hk, hv2])
        · exact Or.inr (by simp [Function.update_noteq hk, he2])
    · rw [hc]
      exact hinv k
  · rw [h]
    intro k
    have hkey := hlookup s.state pk voter hvoter
    by_cases hk : k = c.AsBytes pk
    · subst hk
      rw [hkey] at he
      exact Or.inr he
    · rcases hinv k with hv2 | he2
      · exact Or.inl (by simp [Function.update_noteq hk, hv2])
      · exact Or.inr he2

/-- One call of `ValidateMessage` keeps every entry of `equivocations` at two votes
or more. -/
theorem ValidateMessage_paired (c : Collaborators) (s : Service) (m : VoteMessage)
    (hinv : EquivocationsPaired s) : EquivocationsPaired (ValidateMessage c s m).2 := by
  intro k eqs hk
  rcases ValidateMessage_equivocations c s m k with h | ⟨eqs0, w, h0, h⟩ | ⟨prev, w, _, _, h, _⟩
  · rw [h] at hk
    exact hinv k eqs hk
  · rw [h] at hk
    cases hk
    have := hinv k eqs0 h0
    simp
    omega
  · rw [h] at hk
    cases hk
    simp

theorem runMessages_append (c : Collaborators) (s : Service) (ms1 ms2 : List VoteMessage) :
    runMessages c s (ms1 ++ ms2) = runMessages c (runMessages c s ms1) ms2 := by
  induction ms1 generalizing s with
  | nil => rfl
  | cons m ms ih => exact ih (ValidateMessage c s m).2

/-- The method `validateVote` returns nil exactly when both queries answer true. -/
theorem validateVote_ok_iff (c : Collaborators) (s : Service) (v : Vote) :
    validateVote c s v = .ok () ↔ VoteValidated c s v := by
  unfold validateVote VoteValidated
  cases hh : c.HasHeader v.hash with
  | error e => simp
  | ok has =>
    cases has with
    | false => simp
    | true =>
      cases hd : c.IsDescendantOf s.head v.hash with
      | error e => simp
      | ok d =>
        cases d with
        | false => simp
        | true => simp

/-- The errors `validateVote` can return: an error of a query, or one of its two
sentinels. -/
theorem validateVote_error (c : Collaborators) (s : Service) (v : Vote) (e : GoError)
    (h : validateVote c s v = .error e) :
    c.HasHeader v.hash = .error e ∨ e = GoError.ErrBlockDoesNotExist ∨
      c.IsDescendantOf s.head v.hash = .error e ∨ e = GoError.ErrDescendantNotFound := by
  unfold validateVote at h
  cases hh : c.HasHeader v.hash with
  | error e2 =>
    rw [hh] at h
    cases h
    exact Or.inl rfl
  | ok has =>
    rw [hh] at h
    cases has with
    | false =>
      simp at h
      exact Or.inr (Or.inl h.symm)
    | true =>
      cases hd : c.IsDescendantOf s.head v.hash with
      | error e2 =>
        rw [hd] at h
        simp at h
        exact Or.inr (Or.inr (Or.inl (by rw [h])))
      | ok d =>
        rw [hd] at h
        cases d with
        | false =>
          simp at h
          exact Or.inr (Or.inr (Or.inr h.symm))
        | true => simp at h

/-- A call of `ValidateMessage` writes neither `s.state` nor `s.head`. -/
theorem ValidateMessage_frame (c : Collaborators) (s : Service) (m : VoteMessage) :
    (ValidateMessage c s m).2.state = s.state ∧ (ValidateMessage c s m).2.head = s.head := by
  rcases ValidateMessage_cases c s m with ⟨e, h⟩ | ⟨pk, voter, _, _, _, h⟩ |
    ⟨pk, voter, _, _, _, _, _, h⟩
  · rw [h]
    exact ⟨rfl, rfl⟩
  · rw [h]
    rcases checkForEquivocation_cases c s voter
        (NewVote m.message.hash m.message.number) with
      ⟨eqs, _, hc⟩ | ⟨prev, _, _, hc⟩ | ⟨_, _, hc⟩ <;>
    · rw [hc]
      exact ⟨rfl, rfl⟩
  · rw [h]
    exact ⟨rfl, rfl⟩

theorem recordVote_frame (s : Service) (v : PublicKeyBytes) (w : Vote) :
    (recordVote s v w).state = s.state ∧ (recordVote s v w).head = s.head := by
  unfold recordVote
  cases s.equivocations v with
  | some eqs => exact ⟨rfl, rfl⟩
  | none =>
    cases s.votes v with
    | some prev => exact ⟨rfl, rfl⟩
    | none => exact ⟨rfl, rfl⟩

/-- Being a valid ballot depends on the service only through `state` and `head`. -/
theorem ValidBallot_of_frame (c : Collaborators) (s t : Service) (m : VoteMessage)
    (v : PublicKeyBytes) (hstate : t.state = s.state) (hhead : t.head = s.head)
    (h : ValidBallot c s m v) : ValidBallot c t m v := by
  obtain ⟨⟨pk, voter, msg, hs⟩, hh, hd⟩ := h
  refine ⟨⟨pk, voter, msg, ?_⟩, hh, ?_⟩
  · exact
      { parsed := hs.parsed
        encoded := hs.encoded
        verified := hs.verified
        sameSet := by rw [hstate]; exact hs.sameSet
        isVoter := by rw [hstate]; exact hs.isVoter
        voterKey := hs.voterKey
        signerKey := hs.signerKey }
  · rw [hhead]
    exact hd

/-- For a valid ballot, `ValidateMessage` leaves the service that `recordVote`
describes. -/
theorem ValidateMessage_of_ballot (c : Collaborators) (s : Service) (m : VoteMessage)
    (v : PublicKeyBytes) (h : ValidBallot c s m v) :
    (ValidateMessage c s m).2 = recordVote s v (NewVote m.message.hash m.message.number) := by
  obtain ⟨⟨pk, voter, msg, hs⟩, hval⟩ := h
  have hk := hs.voterKey
  subst hk
  rw [ValidateMessage_of_signed c s m _ pk voter msg hs]
  unfold recordVote
  rcases checkForEquivocation_cases c s voter (NewVote m.message.hash m.message.number) with
    ⟨eqs, he, hc⟩ | ⟨prev, he, hv, hc⟩ | ⟨he, hv, hc⟩
  · rw [hc, he]
    rfl
  · rw [hc, he, hv]
    rfl
  · rw [hc, he, hv]
    have hvv := (validateVote_ok_iff c s (NewVote m.message.hash m.message.number)).2 hval
    simp [hvv]

theorem Service_eq (a b : Service) (h1 : a.state = b.state) (h2 : a.subround = b.subround)
    (h3 : a.votes = b.votes) (h4 : a.equivocations = b.equivocations) (h5 : a.head = b.head) :
    a = b := by
  cases a
  cases b
  simp_all

theorem recordVote_subround (s : Service) (v : PublicKeyBytes) (w : Vote) :
    (recordVote s v w).subround = s.subround := by
  unfold recordVote
  cases s.equivocations v with
  | some eqs => rfl
  | none =>
    cases s.votes v with
    | some prev => rfl
    | none => rfl

/-- The entry of a key `k` in `votes` after `recordVote`. -/
theorem recordVote_votes (s : Service) (v : PublicKeyBytes) (w : Vote) (k : PublicKeyBytes) :
    (recordVote s v w).votes k =
      if k = v then
        match s.equivocations v with
        | some _ => s.votes v
        | none =>
          match s.votes v with
          | some _ => none
          | none => some w
      else s.votes k := by
  unfold recordVote
  by_cases hk : k = v
  · subst hk
    cases he : s.equivocations k with
    | some eqs => simp
    | none =>
      cases hv : s.votes k with
      | some prev => simp
      | none => simp
  · cases he : s.equivocations v with
    | some eqs => simp [hk]
    | none =>
      cases hv : s.votes v with
      | some prev => simp [hk, Function.update_noteq hk]
      | none => simp [hk, Function.update_noteq hk]

/-- The entry of a key `k` in `equivocations` after `recordVote`. -/
theorem recordVote_equivocations (s : Service) (v : PublicKeyBytes) (w : Vote)
    (k : PublicKeyBytes) :
    (recordVote s v w).equivocations k =
      if k = v then
        match s.equivocations v with
        | some eqs => some (eqs ++ [w])
        | none =>
          match s.votes v with
          | some prev => some [prev, w]
          | none => none
      else s.equivocations k := by
  unfold recordVote
  by_cases hk : k = v
  · subst hk
    cases he : s.equivocations k with
    | some eqs => simp
    | none =>
      cases hv : s.votes k with
      | some prev => simp
      | none => simp [he]
  · cases he : s.equivocations v with
    | some eqs => simp [hk, Function.update_noteq hk]
    | none =>
      cases hv : s.votes v with
      | some prev => simp [hk, Function.update_noteq hk]
      | none => simp [hk]

/-- Recording votes of two different keys commutes. -/
theorem recordVote_comm (s : Service) (v1 v2 : PublicKeyBytes) (w1 w2 : Vote) (hne : v1 ≠ v2) :
    recordVote (recordVote s v1 w1) v2 w2 = recordVote (recordVote s v2 w2) v1 w1 := by
  have hne2 : v2 ≠ v1 := fun h => hne h.symm
  apply Service_eq
  · rw [(recordVote_frame _ _ _).1, (recordVote_frame _ _ _).1, (recordVote_frame _ _ _).1,
      (recordVote_frame _ _ _).1]
  · rw [recordVote_subround, recordVote_subround, recordVote_subround, recordVote_subround]
  · funext k
    rw [recordVote_votes, recordVote_votes, recordVote_equivocations, recordVote_votes,
      recordVote_votes, recordVote_votes, recordVote_equivocations, recordVote_votes]
    by_cases h1 : k = v1
    · subst h1
      simp [hne, hne2]
    · by_cases h2 : k = v2
      · subst h2
        simp [hne, hne2]
      · simp [h1, h2]
  · funext k
    rw [recordVote_equivocations, recordVote_equivocations, recordVote_equivocations,
      recordVote_votes, recordVote_equivocations, recordVote_equivocations,
      recordVote_equivocations, recordVote_votes]
    by_cases h1 : k = v1
    · subst h1
      simp [hne, hne2]
    · by_cases h2 : k = v2
      · subst h2
        simp [hne, hne2]
      · simp [h1, h2]
  · rw [(recordVote_frame _ _ _).2, (recordVote_frame _ _ _).2, (recordVote_frame _ _ _).2,
      (recordVote_frame _ _ _).2]

/-- The run over the messages of valid ballots is the fold of `recordVote`. -/
theorem runMessages_of_ballots (c : Collaborators) (s : Service)
    (bs : List (PublicKeyBytes × VoteMessage))
    (h : ∀ b ∈ bs, ValidBallot c s b.2 b.1) :
    runMessages c s (ballotMessages bs) =
      bs.foldl (fun t b => recordVote t b.1 (NewVote b.2.message.hash b.2.message.number)) s := by
  induction bs generalizing s with
  | nil => rfl
  | cons b bs ih =>
    have hb := h b (List.mem_cons_self _ _)
    have hstep := ValidateMessage_of_ballot c s b.2 b.1 hb
    have hfr := recordVote_frame s b.1 (NewVote b.2.message.hash b.2.message.number)
    simp only [ballotMessages, List.map_cons, runMessages, List.foldl_cons]
    rw [hstep]
    exact ih _ (fun b2 hb2 =>
      ValidBallot_of_frame c s _ b2.2 b2.1 hfr.1 hfr.2 (h b2 (List.mem_cons_of_mem _ hb2)))

/-- Folding `recordVote` over ballots of pairwise distinct keys does not depend on
their order. -/
theorem foldl_recordVote_perm (bs bs2 : List (PublicKeyBytes × VoteMessage))
    (hperm : bs.Perm bs2) (hnodup : (bs.map Prod.fst).Nodup) (s : Service) :
    bs.foldl (fun t b => recordVote t b.1 (NewVote b.2.message.hash b.2.message.number)) s =
      bs2.foldl (fun t b => recordVote t b.1 (NewVote b.2.message.hash b.2.message.number)) s := by
  induction hperm generalizing s with
  | nil => rfl
  | cons b _ ih =>
    simp only [List.foldl_cons]
    exact ih (List.nodup_cons.1 (by simpa using hnodup)).2 _
  | swap b1 b2 l =>
    simp only [List.foldl_cons]
    have hne : b2.1 ≠ b1.1 := by
      intro heq
      simp [heq] at hnodup
    rw [recordVote_comm s b2.1 b1.1 _ _ hne]
  | trans h1 _ ih1 ih2 =>
    rw [ih1 hnodup s]
    exact ih2 ((h1.map Prod.fst).nodup_iff.1 hnodup) s

/-- One call of `ValidateMessage` gives a key a new vote in `votes` only by
returning that vote without error, after both queries of `validateVote` answered
true. -/
theorem ValidateMessage_votes_change (c : Collaborators) (s : Service) (m : VoteMessage)
    (k : PublicKeyBytes) (w : Vote)
    (hafter : (ValidateMessage c s m).2.votes k = some w) (hbefore : s.votes k ≠ some w) :
    (ValidateMessage c s m).1 = .ok w ∧ VoteValidated c s w := by
  rcases ValidateMessage_cases c s m with ⟨e, h⟩ | ⟨pk, voter, _, _, _, h⟩ |
    ⟨pk, voter, _, _, _, _, hvv, h⟩
  · rw [h] at hafter
    exact absurd hafter hbefore
  · rw [h] at hafter
    rcases checkForEquivocation_cases c s voter
        (NewVote m.message.hash m.message.number) with
      ⟨eqs, _, hc⟩ | ⟨prev, _, _, hc⟩ | ⟨_, _, hc⟩
    · rw [hc] at hafter
      exact absurd hafter hbefore
    · rw [hc] at hafter
      by_cases hk : k = c.AsBytes voter.key
      · subst hk
        simp at hafter
      · simp [Function.update_noteq hk] at hafter
        exact absurd hafter hbefore
    · rw [hc] at hafter
      exact absurd hafter hbefore
  · rw [h] at hafter
    rw [h]
    by_cases hk : k = c.AsBytes pk
    · subst hk
      simp at hafter
      subst hafter
      exact ⟨rfl, (validateVote_ok_iff c s _).1 hvv⟩
    · simp [Function.update_noteq hk] at hafter
      exact absurd hafter hbefore

/-- One call of `ValidateMessage` keeps every vote in `votes` validated. -/
theorem ValidateMessage_validated (c : Collaborators) (s : Service) (m : VoteMessage)
    (hinv : VotesValidated c s) : VotesValidated c (ValidateMessage c s m).2 := by
  intro k w hk
  have hhead := (ValidateMessage_frame c s m).2
  unfold VoteValidated
  rw [hhead]
  by_cases hb : s.votes k = some w
  · exact hinv k w hb
  · exact (ValidateMessage_votes_change c s m k w hk hb).2

/-- The sample voter lookup and block state hand back none of the sentinel errors. -/
theorem sampleCollaborators_sentinelFree : SentinelFree sampleCollaborators := by
  refine ⟨?_, ?_, ?_⟩
  · intro st pk e h
    simp only [sampleCollaborators] at h
    split at h
    · cases h
    · cases h
      exact ⟨by decide, by decide⟩
  · intro h e he
    simp [sampleCollaborators] at he
  · intro a h e he
    simp [sampleCollaborators] at he

/-- A message that passes the signature check and the set-id check is not rejected
with the error of either check, when the voter lookup and the block state do not
hand these errors back. -/
theorem ValidateMessage_after_checks (c : Collaborators) (s : Service) (m : VoteMessage)
    (pk : PublicKey) (hpk : c.NewPublicKey m.message.authorityID = .ok pk)
    (hsig : validateMessageSignature c pk m = .ok ()) (hset : m.setID = s.state.setID)
    (hfree : SentinelFree c) :
    (ValidateMessage c s m).1 ≠ .error GoError.ErrInvalidSignature ∧
      (ValidateMessage c s m).1 ≠ .error GoError.ErrSetIDMismatch := by
  obtain ⟨hf1, hf2, hf3⟩ := hfree
  cases hvoter : c.pubkeyToVoter s.state pk with
  | error e =>
    have h : ValidateMessage c s m = (.error e, s) := by
      simp [ValidateMessage, hpk, hsig, hset, hvoter]
    have hne := hf1 _ _ _ hvoter
    rw [h]
    exact ⟨fun h2 => hne.1 (Except.error.inj h2), fun h2 => hne.2 (Except.error.inj h2)⟩
  | ok voter =>
    rcases checkForEquivocation_cases c s voter (NewVote m.message.hash m.message.number) with
      ⟨eqs, _, hc⟩ | ⟨prev, _, _, hc⟩ | ⟨_, _, hc⟩
    · have h : (ValidateMessage c s m).1 = .error GoError.ErrEquivocation := by
        simp [ValidateMessage, hpk, hsig, hset, hvoter, hc]
      rw [h]
      exact ⟨by simp, by simp⟩
    · have h : (ValidateMessage c s m).1 = .error GoError.ErrEquivocation := by
        simp [ValidateMessage, hpk, hsig, hset, hvoter, hc]
      rw [h]
      exact ⟨by simp, by simp⟩
    · cases hvv : validateVote c s (NewVote m.message.hash m.message.number) with
      | error e =>
        have h : (ValidateMessage c s m).1 = .error e := by
          simp [ValidateMessage, hpk, hsig, hset, hvoter, hc, hvv]
        rw [h]
        rcases validateVote_error c _ _ e hvv with h2 | h2 | h2 | h2
        · have hne := hf2 _ _ h2
          exact ⟨fun h3 => hne.1 (Except.error.inj h3), fun h3 => hne.2 (Except.error.inj h3)⟩
        · subst h2
          exact ⟨by simp, by simp⟩
        · have hne := hf3 _ _ _ h2
          exact ⟨fun h3 => hne.1 (Except.error.inj h3), fun h3 => hne.2 (Except.error.inj h3)⟩
        · subst h2
          exact ⟨by simp, by simp⟩
      | ok u =>
        have h : (ValidateMessage c s m).1 = .ok (NewVote m.message.hash m.message.number) := by
          simp [ValidateMessage, hpk, hsig, hset, hvoter, hc, hvv]
        rw [h]
        exact ⟨by simp, by simp⟩

/-- Whatever the key pair, a failing encoding or a failing signature makes
`CreateVoteMessage` return that error: the type assertion is not reached. -/
theorem CreateVoteMessage_failures (c : Collaborators) (a : Authoring) (s : Service)
    (header : Header) (kp : Keypair) :
    (∀ e,
        c.Encode
            { stage := s.subround
              vote := a.NewVoteFromHeader header
              round := s.state.round
              setID := s.state.setID } = .error e →
        CreateVoteMessage c a s header kp = .failed e) ∧
      (∀ msg e,
        c.Encode
            { stage := s.subround
              vote := a.NewVoteFromHeader header
              round := s.state.round
              setID := s.state.setID } = .ok msg →
        kp.Sign msg = .error e →
        CreateVoteMessage c a s header kp = .failed e) := by
  refine ⟨?_, ?_⟩
  · intro e henc
    simp [CreateVoteMessage, henc]
  · intro msg e henc hsig
    simp [CreateVoteMessage, henc, hsig]

/-- For a key pair whose public key is no `*ed25519.PublicKey`, successful encoding
and signing end in the panic of the type assertion. -/
theorem CreateVoteMessage_not_ed25519 (c : Collaborators) (a : Authoring) (s : Service)
    (header : Header) (kp : Keypair) (msg sig : List Nat)
    (hed : kp.PublicIsEd25519 = false)
    (henc : c.Encode
        { stage := s.subround
          vote := a.NewVoteFromHeader header
          round := s.state.round
          setID := s.state.setID } = .ok msg)
    (hsig : kp.Sign msg = .ok sig) :
    CreateVoteMessage c a s header kp = .crashed := by
  simp [CreateVoteMessage, henc, hsig, hed]

/-- For an ed25519 key pair, successful encoding and signing return the message
whose signature is the fixed-size form `NewSignatureBytes` of what `kp.Sign`
returned. -/
theorem CreateVoteMessage_ed25519 (c : Collaborators) (a : Authoring) (s : Service)
    (header : Header) (kp : Keypair) (msg sig : List Nat)
    (hed : kp.PublicIsEd25519 = true)
    (henc : c.Encode
        { stage := s.subround
          vote := a.NewVoteFromHeader header
          round := s.state.round
          setID := s.state.setID } = .ok msg)
    (hsig : kp.Sign msg = .ok sig) :
    CreateVoteMessage c a s header kp =
      .returned
        { setID := s.state.setID
          round := s.state.round
          stage := s.subround
          message :=
            { hash := (a.NewVoteFromHeader header).hash
              number := (a.NewVoteFromHeader header).number
              signature := a.NewSignatureBytes sig
              authorityID := c.AsBytes kp.Public } } := by
  simp [CreateVoteMessage, henc, hsig, hed]

/-! ## The claims -/

/-- C1. A message whose signature does not verify (`Verify` answers false without
error) against the encoding of its `FullVote` under its authority id is rejected
with `ErrInvalidSignature`, no vote is returned and the service, hence both maps,
is left as it was; nothing is assumed about the set id, the signer or the block. -/
theorem C1_invalid_signature_rejected (c : Collaborators) (s : Service) (m : VoteMessage)
    (pk : PublicKey) (msg : List Nat)
    (hpk : c.NewPublicKey m.message.authorityID = .ok pk)
    (henc : c.Encode (signedFullVote m) = .ok msg)
    (hver : c.Verify pk msg m.message.signature = .ok false) :
    (ValidateMessage c s m).1 = .error GoError.ErrInvalidSignature ∧
      (ValidateMessage c s m).2.votes = s.votes ∧
      (ValidateMessage c s m).2.equivocations = s.equivocations := by
  unfold signedFullVote at henc
  simp [ValidateMessage, validateMessageSignature, hpk, henc, hver]

/-- C1 at a concrete input: a message from a key outside the authority set, for a
foreign set id and an unknown block, with a corrupted signature. -/
theorem C1_invalid_signature_rejected_witness :
    (ValidateMessage sampleCollaborators sampleServiceVoted
        (sampleForgedMessage 7 [9] [99] 5)).1 = .error GoError.ErrInvalidSignature ∧
      (ValidateMessage sampleCollaborators sampleServiceVoted
        (sampleForgedMessage 7 [9] [99] 5)).2.votes = sampleServiceVoted.votes ∧
      (ValidateMessage sampleCollaborators sampleServiceVoted
        (sampleForgedMessage 7 [9] [99] 5)).2.equivocations =
          sampleServiceVoted.equivocations :=
  C1_invalid_signature_rejected sampleCollaborators sampleServiceVoted
    (sampleForgedMessage 7 [9] [99] 5) [9] (sampleEncode (signedFullVote
      (sampleForgedMessage 7 [9] [99] 5))) (by decide) rfl (by decide)

/-- C2. When voter `v` holds the vote `prev` in `votes` and has no entry in
`equivocations`, a validly signed message of `v` for the current set carrying a
different vote `w` returns `ErrEquivocation` and no vote; afterwards `votes` has no
entry for `v`, `equivocations[v]` is the sequence `[prev, w]`, and the entries of
every other key in both maps are as before. -/
theorem C2_second_vote_equivocates (c : Collaborators) (s : Service) (m : VoteMessage)
    (v : PublicKeyBytes) (pk : PublicKey) (voter : Voter) (msg : List Nat) (prev : Vote)
    (h : SignedByVoter c s m v pk voter msg)
    (hprev : s.votes v = some prev) (hno : s.equivocations v = none)
    (_hne : NewVote m.message.hash m.message.number ≠ prev) :
    (ValidateMessage c s m).1 = .error GoError.ErrEquivocation ∧
      (ValidateMessage c s m).2.votes v = none ∧
      (ValidateMessage c s m).2.equivocations v =
        some [prev, NewVote m.message.hash m.message.number] ∧
      ∀ k, k ≠ v →
        (ValidateMessage c s m).2.votes k = s.votes k ∧
        (ValidateMessage c s m).2.equivocations k = s.equivocations k := by
  have hk := h.voterKey
  subst hk
  rw [ValidateMessage_of_signed c s m _ pk voter msg h,
    checkForEquivocation_of_voted c s voter _ prev hno hprev]
  refine ⟨rfl, by simp, by simp, ?_⟩
  intro k hk
  simp [Function.update_noteq hk]

/-- C2 at a concrete input: voter `[1]` voted for block `[11]` and now votes for
block `[12]`. -/
theorem C2_second_vote_equivocates_witness :
    (ValidateMessage sampleCollaborators sampleServiceVoted
        (sampleMessage 0 [1] [12] 2)).1 = .error GoError.ErrEquivocation ∧
      (ValidateMessage sampleCollaborators sampleServiceVoted
        (sampleMessage 0 [1] [12] 2)).2.votes [1] = none ∧
      (ValidateMessage sampleCollaborators sampleServiceVoted
        (sampleMessage 0 [1] [12] 2)).2.equivocations [1] =
          some [sampleVote11, sampleVote12] ∧
      ∀ k, k ≠ [1] →
        (ValidateMessage sampleCollaborators sampleServiceVoted
          (sampleMessage 0 [1] [12] 2)).2.votes k = sampleServiceVoted.votes k ∧
        (ValidateMessage sampleCollaborators sampleServiceVoted
          (sampleMessage 0 [1] [12] 2)).2.equivocations k =
            sampleServiceVoted.equivocations k :=
  C2_second_vote_equivocates sampleCollaborators sampleServiceVoted
    (sampleMessage 0 [1] [12] 2) [1] [1] { key := [1], id := 0 } _ sampleVote11
    (sampleMessage_signed sampleServiceVoted [1] [12] 2 (by decide)) (by decide) (by decide)
    (by decide)

/-- C3, refuted as stated. Voter `[1]` holds the vote for block `[11]` (an existing
block descending from head) and has no entry in `equivocations`; resubmitting a
validly signed message for the current set with the identical vote is not accepted:
the call returns `ErrEquivocation`, removes the voter from `votes` and records the
vote twice in `equivocations`. -/
theorem C3_identical_vote_counterexample :
    SignedByVoter sampleCollaborators sampleServiceVoted (sampleMessage 0 [1] [11] 1) [1] [1]
        { key := [1], id := 0 }
        (sampleEncode (signedFullVote (sampleMessage 0 [1] [11] 1))) ∧
      sampleServiceVoted.votes [1] = some sampleVote11 ∧
      NewVote (sampleMessage 0 [1] [11] 1).message.hash
        (sampleMessage 0 [1] [11] 1).message.number = sampleVote11 ∧
      sampleServiceVoted.equivocations [1] = none ∧
      (ValidateMessage sampleCollaborators sampleServiceVoted
        (sampleMessage 0 [1] [11] 1)).1 ≠ .ok sampleVote11 ∧
      (ValidateMessage sampleCollaborators sampleServiceVoted
        (sampleMessage 0 [1] [11] 1)).1 = .error GoError.ErrEquivocation ∧
      (ValidateMessage sampleCollaborators sampleServiceVoted
        (sampleMessage 0 [1] [11] 1)).2.votes ≠ sampleServiceVoted.votes ∧
      (ValidateMessage sampleCollaborators sampleServiceVoted
        (sampleMessage 0 [1] [11] 1)).2.votes [1] = none ∧
      (ValidateMessage sampleCollaborators sampleServiceVoted
        (sampleMessage 0 [1] [11] 1)).2.equivocations ≠ sampleServiceVoted.equivocations ∧
      (ValidateMessage sampleCollaborators sampleServiceVoted
        (sampleMessage 0 [1] [11] 1)).2.equivocations [1] =
          some [sampleVote11, sampleVote11] := by
  refine ⟨sampleMessage_signed sampleServiceVoted [1] [11] 1 (by decide), by decide,
    by decide, by decide, by decide, by decide, ?_, by decide, ?_, by decide⟩
  · intro hc
    have h1 := congrFun hc [1]
    revert h1
    decide
  · intro hc
    have h1 := congrFun hc [1]
    revert h1
    decide

/-- C3, amended. When voter `v` holds the vote `w` in `votes` and has no entry in
`equivocations`, a validly signed message of `v` for the current set carrying the
identical vote `w` is treated like any other second vote: the call returns
`ErrEquivocation` and no vote, `v` is removed from `votes`, `equivocations[v]`
becomes `[w, w]`, and the entries of every other key in both maps are as before. -/
theorem C3_identical_vote_equivocates (c : Collaborators) (s : Service) (m : VoteMessage)
    (v : PublicKeyBytes) (pk : PublicKey) (voter : Voter) (msg : List Nat) (w : Vote)
    (h : SignedByVoter c s m v pk voter msg)
    (hcur : s.votes v = some w) (hno : s.equivocations v = none)
    (hsame : NewVote m.message.hash m.message.number = w) :
    (ValidateMessage c s m).1 = .error GoError.ErrEquivocation ∧
      (ValidateMessage c s m).2.votes v = none ∧
      (ValidateMessage c s m).2.equivocations v = some [w, w] ∧
      ∀ k, k ≠ v →
        (ValidateMessage c s m).2.votes k = s.votes k ∧
        (ValidateMessage c s m).2.equivocations k = s.equivocations k := by
  have hk := h.voterKey
  subst hk
  rw [ValidateMessage_of_signed c s m _ pk voter msg h,
    checkForEquivocation_of_voted c s voter _ w hno hcur, hsame]
  refine ⟨rfl, by simp, by simp, ?_⟩
  intro k hk
  simp [Function.update_noteq hk]

/-- C3, amended, at a concrete input: voter `[2]` voted for block `[12]` and votes
for it again. -/
theorem C3_identical_vote_equivocates_witness :
    (ValidateMessage sampleCollaborators
        { sampleService with votes := Function.update sampleService.votes [2] (some sampleVote12) }
        (sampleMessage 0 [2] [12] 2)).1 = .error GoError.ErrEquivocation ∧
      (ValidateMessage sampleCollaborators
        { sampleService with votes := Function.update sampleService.votes [2] (some sampleVote12) }
        (sampleMessage 0 [2] [12] 2)).2.equivocations [2] =
          some [sampleVote12, sampleVote12] :=
  have h := C3_identical_vote_equivocates sampleCollaborators
    { sampleService with votes := Function.update sampleService.votes [2] (some sampleVote12) }
    (sampleMessage 0 [2] [12] 2) [2] [2] { key := [2], id := 1 } _ sampleVote12
    (sampleMessage_signed
      { sampleService with votes := Function.update sampleService.votes [2] (some sampleVote12) }
      [2] [12] 2 (by decide)) (by decide) (by decide) (by decide)
  ⟨h.1, h.2.2.1⟩

/-- C4. When voter `v` already has the entry `eqs` in `equivocations`, every validly
signed message of `v` for the current set returns `ErrEquivocation`; the new vote is
appended at the end of `equivocations[v]` (one element more, the earlier ones kept
in order), `votes` is unchanged (so a `v` without a vote stays without one) and the
other entries of `equivocations` are as before. Nothing is assumed about the block
voted for. -/
theorem C4_equivocator_vote_appended (c : Collaborators) (s : Service) (m : VoteMessage)
    (v : PublicKeyBytes) (pk : PublicKey) (voter : Voter) (msg : List Nat) (eqs : List Vote)
    (h : SignedByVoter c s m v pk voter msg)
    (heqs : s.equivocations v = some eqs) :
    (ValidateMessage c s m).1 = .error GoError.ErrEquivocation ∧
      (ValidateMessage c s m).2.equivocations v =
        some (eqs ++ [NewVote m.message.hash m.message.number]) ∧
      (eqs ++ [NewVote m.message.hash m.message.number]).length = eqs.length + 1 ∧
      (ValidateMessage c s m).2.votes = s.votes ∧
      (s.votes v = none → (ValidateMessage c s m).2.votes v = none) ∧
      ∀ k, k ≠ v → (ValidateMessage c s m).2.equivocations k = s.equivocations k := by
  have hk := h.voterKey
  subst hk
  rw [ValidateMessage_of_signed c s m _ pk voter msg h,
    checkForEquivocation_of_equivocated c s voter _ eqs heqs]
  refine ⟨rfl, by simp, by simp, rfl, fun hv => by simpa using hv, ?_⟩
  intro k hk
  simp [Function.update_noteq hk]

/-- C4 at a concrete input: voter `[1]` has equivocated on blocks `[11]` and `[12]`
and now votes for the unknown block `[99]`. -/
theorem C4_equivocator_vote_appended_witness :
    (ValidateMessage sampleCollaborators sampleServiceEquivocated
        (sampleMessage 0 [1] [99] 9)).1 = .error GoError.ErrEquivocation ∧
      (ValidateMessage sampleCollaborators sampleServiceEquivocated
        (sampleMessage 0 [1] [99] 9)).2.equivocations [1] =
          some [sampleVote11, sampleVote12, { hash := [99], number := 9 }] ∧
      (ValidateMessage sampleCollaborators sampleServiceEquivocated
        (sampleMessage 0 [1] [99] 9)).2.votes = sampleServiceEquivocated.votes :=
  have h := C4_equivocator_vote_appended sampleCollaborators sampleServiceEquivocated
    (sampleMessage 0 [1] [99] 9) [1] [1] { key := [1], id := 0 } _
    [sampleVote11, sampleVote12]
    (sampleMessage_signed sampleServiceEquivocated [1] [99] 9 (by decide)) (by decide)
  ⟨h.1, h.2.1, h.2.2.2.1⟩

/-- C5. When voter `v` has no entry in `votes` and none in `equivocations`, a validly
signed message of `v` for the current set whose block exists (`HasHeader` answers
true) and descends from head (`IsDescendantOf` answers true) is accepted: the call
returns the vote with the hash and number of the message and no error; afterwards
`votes[v]` is that vote, every other entry of `votes` is as before and
`equivocations` is unchanged. -/
theorem C5_first_vote_inserted (c : Collaborators) (s : Service) (m : VoteMessage)
    (v : PublicKeyBytes) (pk : PublicKey) (voter : Voter) (msg : List Nat)
    (h : SignedByVoter c s m v pk voter msg)
    (hv : s.votes v = none) (he : s.equivocations v = none)
    (hhas : c.HasHeader m.message.hash = .ok true)
    (hdesc : c.IsDescendantOf s.head m.message.hash = .ok true) :
    ∃ vote : Vote,
      (ValidateMessage c s m).1 = .ok vote ∧
      vote.hash = m.message.hash ∧ vote.number = m.message.number ∧
      (ValidateMessage c s m).2.votes v = some vote ∧
      (∀ k, k ≠ v → (ValidateMessage c s m).2.votes k = s.votes k) ∧
      (ValidateMessage c s m).2.equivocations = s.equivocations := by
  have hk := h.voterKey
  subst hk
  refine ⟨NewVote m.message.hash m.message.number, ?_⟩
  rw [ValidateMessage_of_signed c s m _ pk voter msg h,
    checkForEquivocation_of_fresh c s voter _ he hv]
  have hvv : validateVote c s (NewVote m.message.hash m.message.number) = .ok () := by
    simp [validateVote, NewVote, hhas, hdesc]
  simp only [hvv]
  refine ⟨by simp, rfl, rfl, by simp, ?_, by simp⟩
  intro k hk
  simp [Function.update_noteq hk]

/-- C5 at a concrete input: voter `[2]` casts a first vote, for block `[12]`, while
voter `[1]` already holds a vote. -/
theorem C5_first_vote_inserted_witness :
    ∃ vote : Vote,
      (ValidateMessage sampleCollaborators sampleServiceVoted
        (sampleMessage 0 [2] [12] 2)).1 = .ok vote ∧
      vote.hash = [12] ∧ vote.number = 2 ∧
      (ValidateMessage sampleCollaborators sampleServiceVoted
        (sampleMessage 0 [2] [12] 2)).2.votes [2] = some vote ∧
      (∀ k, k ≠ [2] →
        (ValidateMessage sampleCollaborators sampleServiceVoted
          (sampleMessage 0 [2] [12] 2)).2.votes k = sampleServiceVoted.votes k) ∧
      (ValidateMessage sampleCollaborators sampleServiceVoted
        (sampleMessage 0 [2] [12] 2)).2.equivocations = sampleServiceVoted.equivocations :=
  C5_first_vote_inserted sampleCollaborators sampleServiceVoted
    (sampleMessage 0 [2] [12] 2) [2] [2] { key := [2], id := 1 } _
    (sampleMessage_signed sampleServiceVoted [2] [12] 2 (by decide)) (by decide) (by decide)
    (by decide) (by decide)

/-- C6. Equivocation detection runs before the block-existence check. When voter `v`
holds the vote `prev` in `votes`, a validly signed message of `v` for the current
set voting for a block for which `HasHeader` answers false returns
`ErrEquivocation`, not `ErrBlockDoesNotExist`; and in a state of the data model
(no key in both maps) `v` is removed from `votes` and `equivocations[v]` holds the
previous vote followed by the new one. -/
theorem C6_equivocation_before_block_check (c : Collaborators) (s : Service)
    (m : VoteMessage) (v : PublicKeyBytes) (pk : PublicKey) (voter : Voter) (msg : List Nat)
    (prev : Vote)
    (h : SignedByVoter c s m v pk voter msg)
    (hprev : s.votes v = some prev)
    (_hhas : c.HasHeader m.message.hash = .ok false) :
    (ValidateMessage c s m).1 = .error GoError.ErrEquivocation ∧
      (ValidateMessage c s m).1 ≠ .error GoError.ErrBlockDoesNotExist ∧
      (DisjointMaps s →
        (ValidateMessage c s m).2.votes v = none ∧
        (ValidateMessage c s m).2.equivocations v =
          some [prev, NewVote m.message.hash m.message.number]) := by
  have hk := h.voterKey
  subst hk
  rw [ValidateMessage_of_signed c s m _ pk voter msg h]
  rcases checkForEquivocation_cases c s voter (NewVote m.message.hash m.message.number) with
    ⟨eqs, he, hc⟩ | ⟨prev2, he, hv, hc⟩ | ⟨_, hv, _⟩
  · rw [hc]
    refine ⟨rfl, by simp, fun hinv => ?_⟩
    rcases hinv (c.AsBytes voter.key) with hv | he2
    · rw [hv] at hprev
      cases hprev
    · rw [he2] at he
      cases he
  · rw [hc]
    rw [hprev] at hv
    cases hv
    exact ⟨rfl, by simp, fun _ => ⟨by simp, by simp⟩⟩
  · rw [hv] at hprev
    cases hprev

/-- C6 at a concrete input: voter `[1]` voted for block `[11]` and now votes for the
unknown block `[99]`. -/
theorem C6_equivocation_before_block_check_witness :
    sampleCollaborators.HasHeader [99] = .ok false ∧
      (ValidateMessage sampleCollaborators sampleServiceVoted
        (sampleMessage 0 [1] [99] 9)).1 = .error GoError.ErrEquivocation ∧
      (ValidateMessage sampleCollaborators sampleServiceVoted
        (sampleMessage 0 [1] [99] 9)).1 ≠ .error GoError.ErrBlockDoesNotExist ∧
      (ValidateMessage sampleCollaborators sampleServiceVoted
        (sampleMessage 0 [1] [99] 9)).2.votes [1] = none ∧
      (ValidateMessage sampleCollaborators sampleServiceVoted
        (sampleMessage 0 [1] [99] 9)).2.equivocations [1] =
          some [sampleVote11, NewVote [99] 9] :=
  have h := C6_equivocation_before_block_check sampleCollaborators sampleServiceVoted
    (sampleMessage 0 [1] [99] 9) [1] [1] { key := [1], id := 0 } _ sampleVote11
    (sampleMessage_signed sampleServiceVoted [1] [99] 9 (by decide)) (by decide) (by decide)
  ⟨by decide, h.1, h.2.1, h.2.2 (fun _ => Or.inr rfl)⟩

/-- C7. A message whose signature verifies but whose set id differs from the
service's is rejected with `ErrSetIDMismatch` and no vote, and the service is left
as it was; the voter lookup, equivocation detection and block validation are not
reached, so nothing is assumed about the signer or the block. -/
theorem C7_set_id_mismatch_rejected (c : Collaborators) (s : Service) (m : VoteMessage)
    (pk : PublicKey) (msg : List Nat)
    (hpk : c.NewPublicKey m.message.authorityID = .ok pk)
    (henc : c.Encode (signedFullVote m) = .ok msg)
    (hver : c.Verify pk msg m.message.signature = .ok true)
    (hset : m.setID ≠ s.state.setID) :
    ValidateMessage c s m = (.error GoError.ErrSetIDMismatch, s) := by
  have hsig := validateMessageSignature_ok c pk m msg henc hver
  simp [ValidateMessage, hpk, hsig, hset]

/-- C7 at a concrete input: a correctly signed message for set 7 from a key outside
the authority set, for an unknown block, while the service is in set 0. -/
theorem C7_set_id_mismatch_rejected_witness :
    sampleCollaborators.pubkeyToVoter sampleServiceVoted.state [9] =
        .error (GoError.collaborator 2) ∧
      ValidateMessage sampleCollaborators sampleServiceVoted (sampleMessage 7 [9] [99] 5) =
        (.error GoError.ErrSetIDMismatch, sampleServiceVoted) :=
  ⟨by decide,
    C7_set_id_mismatch_rejected sampleCollaborators sampleServiceVoted
      (sampleMessage 7 [9] [99] 5) [9]
      (sampleEncode (signedFullVote (sampleMessage 7 [9] [99] 5)))
      (by decide) rfl (by decide) (by decide)⟩

/-- C8. Rejection is atomic: whenever `ValidateMessage` returns an error other than
`ErrEquivocation` (a malformed key, an invalid signature, a set-id mismatch, a
signer that is no voter, `ErrBlockDoesNotExist`, `ErrDescendantNotFound`, or an
error of a collaborator), the `votes` and `equivocations` maps after the call are
those before it. -/
theorem C8_rejection_is_atomic (c : Collaborators) (s : Service) (m : VoteMessage)
    (e : GoError) (herr : (ValidateMessage c s m).1 = .error e)
    (hne : e ≠ GoError.ErrEquivocation) :
    (ValidateMessage c s m).2.votes = s.votes ∧
      (ValidateMessage c s m).2.equivocations = s.equivocations := by
  rcases ValidateMessage_cases c s m with ⟨e2, h⟩ | ⟨pk, voter, _, _, _, h⟩ |
    ⟨pk, voter, _, _, _, _, _, h⟩
  · rw [h]
    exact ⟨rfl, rfl⟩
  · rw [h] at herr
    cases herr
    exact absurd rfl hne
  · rw [h] at herr
    cases herr

/-- C8 at a concrete input: voter `[2]`, who has not voted yet, votes for block
`[13]`, which exists but does not descend from head. -/
theorem C8_rejection_is_atomic_witness :
    (ValidateMessage sampleCollaborators sampleServiceVoted
        (sampleMessage 0 [2] [13] 3)).1 = .error GoError.ErrDescendantNotFound ∧
      (ValidateMessage sampleCollaborators sampleServiceVoted
        (sampleMessage 0 [2] [13] 3)).2.votes = sampleServiceVoted.votes ∧
      (ValidateMessage sampleCollaborators sampleServiceVoted
        (sampleMessage 0 [2] [13] 3)).2.equivocations = sampleServiceVoted.equivocations :=
  ⟨by decide,
    C8_rejection_is_atomic sampleCollaborators sampleServiceVoted (sampleMessage 0 [2] [13] 3)
      GoError.ErrDescendantNotFound (by decide) (by decide)⟩

/-- C9. When the voter lookup answers a voter whose key has the bytes of the signer's
key, and no key has an entry in both `votes` and `equivocations` at the start, then
after any finite sequence of `ValidateMessage` calls no key has an entry in both
maps. -/
theorem C9_maps_stay_disjoint (c : Collaborators) (s : Service) (ms : List VoteMessage)
    (hlookup : ∀ st pk voter, c.pubkeyToVoter st pk = .ok voter →
      c.AsBytes voter.key = c.AsBytes pk)
    (hinv : DisjointMaps s) : DisjointMaps (runMessages c s ms) := by
  induction ms generalizing s with
  | nil => exact hinv
  | cons m ms ih => exact ih (ValidateMessage c s m).2 (ValidateMessage_disjoint c s m hlookup hinv)

/-- C9 at a concrete input: from the empty sample service, voter `[1]` votes for
block `[11]`, voter `[2]` for block `[12]`, voter `[1]` for block `[12]` and voter
`[1]` for block `[11]` again. -/
theorem C9_maps_stay_disjoint_witness :
    DisjointMaps (runMessages sampleCollaborators sampleService
      [sampleMessage 0 [1] [11] 1, sampleMessage 0 [2] [12] 2, sampleMessage 0 [1] [12] 2,
        sampleMessage 0 [1] [11] 1]) :=
  C9_maps_stay_disjoint sampleCollaborators sampleService _
    (fun _ pk voter h => by
      simp only [sampleCollaborators] at h
      split at h
      · cases h
        rfl
      · cases h)
    (fun _ => Or.inl rfl)

/-- C10. When every entry of `equivocations` holds at least two votes at the start,
then after any finite sequence of `ValidateMessage` calls every entry of
`equivocations` holds at least two votes, and its first vote is the vote its key
held in `votes` before (`HeadIsFormerVote`). -/
theorem C10_equivocations_paired (c : Collaborators) (s : Service) (ms : List VoteMessage)
    (hinv : EquivocationsPaired s) (k : PublicKeyBytes) (eqs : List Vote)
    (hk : (runMessages c s ms).equivocations k = some eqs) :
    2 ≤ eqs.length ∧ HeadIsFormerVote c s ms k eqs := by
  induction ms generalizing s with
  | nil => exact ⟨hinv k eqs hk, Or.inl ⟨eqs, hk, rfl⟩⟩
  | cons m ms ih =>
    have hstep := ValidateMessage_paired c s m hinv
    obtain ⟨hlen, hhead⟩ := ih (ValidateMessage c s m).2 hstep hk
    refine ⟨hlen, ?_⟩
    rcases hhead with ⟨eqs1, h1, hh⟩ | ⟨h1, ms1, m1, ms2, prev, w, hms, hv, he, hv2, he2, hh⟩
    · rcases ValidateMessage_equivocations c s m k with
        h | ⟨eqs0, w, h0, h⟩ | ⟨prev, w, h0, hv, h, hv2⟩
      · exact Or.inl ⟨eqs1, by rw [← h, h1], hh⟩
      · rw [h] at h1
        cases h1
        refine Or.inl ⟨eqs0, h0, ?_⟩
        have hpos := hinv k eqs0 h0
        cases eqs0 with
        | nil => simp at hpos
        | cons a t => simpa using hh
      · rw [h] at h1
        cases h1
        exact Or.inr ⟨h0, [], m, ms, prev, w, rfl, hv, h0, hv2, h, hh⟩
    · have h0 : s.equivocations k = none := by
        rcases ValidateMessage_equivocations c s m k with
          h | ⟨eqs0, w, _, h⟩ | ⟨prev, w, _, _, h, _⟩
        · rw [← h, h1]
        · rw [h] at h1
          cases h1
        · rw [h] at h1
          cases h1
      exact Or.inr ⟨h0, m :: ms1, m1, ms2, prev, w, by rw [hms]; rfl, hv, he, hv2, he2, hh⟩

/-- C10 at a concrete input: from the empty sample service, voter `[1]` votes for
block `[11]`, then for block `[12]`, then for the unknown block `[99]`. -/
theorem C10_equivocations_paired_witness :
    (runMessages sampleCollaborators sampleService
        [sampleMessage 0 [1] [11] 1, sampleMessage 0 [1] [12] 2,
          sampleMessage 0 [1] [99] 9]).equivocations [1] =
        some [sampleVote11, sampleVote12, NewVote [99] 9] ∧
      2 ≤ [sampleVote11, sampleVote12, NewVote [99] 9].length ∧
      HeadIsFormerVote sampleCollaborators sampleService
        [sampleMessage 0 [1] [11] 1, sampleMessage 0 [1] [12] 2, sampleMessage 0 [1] [99] 9]
        [1] [sampleVote11, sampleVote12, NewVote [99] 9] :=
  ⟨by decide,
    C10_equivocations_paired sampleCollaborators sampleService
      [sampleMessage 0 [1] [11] 1, sampleMessage 0 [1] [12] 2, sampleMessage 0 [1] [99] 9]
      (fun _ _ h => by cases h) [1] [sampleVote11, sampleVote12, NewVote [99] 9] (by decide)⟩

/-- C11. A vote enters `votes` only after ancestry validation succeeded. Whenever a
call of `ValidateMessage` gives a key a vote it did not hold before, the call
returned that vote without error and `HasHeader` and `IsDescendantOf` answered
true for it; whenever the call returns a vote without error, both queries answered
true and the vote is held in `votes` afterwards. Hence, the answers of the chain
state being fixed, if every vote held at the start is for an existing block
descending from head, so is every vote held after any sequence of calls. -/
theorem C11_votes_validated_before_insertion (c : Collaborators) (s : Service)
    (ms : List VoteMessage) (hinv : VotesValidated c s) :
    (∀ m k w, (ValidateMessage c s m).2.votes k = some w → s.votes k ≠ some w →
        (ValidateMessage c s m).1 = .ok w ∧ VoteValidated c s w) ∧
      (∀ m w, (ValidateMessage c s m).1 = .ok w →
        VoteValidated c s w ∧ ∃ k, (ValidateMessage c s m).2.votes k = some w) ∧
      VotesValidated c (runMessages c s ms) := by
  refine ⟨fun m k w => ValidateMessage_votes_change c s m k w, ?_, ?_⟩
  · intro m w hok
    rcases ValidateMessage_cases c s m with ⟨e, h⟩ | ⟨pk, voter, _, _, _, h⟩ |
      ⟨pk, voter, _, _, _, _, hvv, h⟩
    · rw [h] at hok
      cases hok
    · rw [h] at hok
      cases hok
    · rw [h] at hok
      cases hok
      rw [h]
      exact ⟨(validateVote_ok_iff c s _).1 hvv, c.AsBytes pk, by simp⟩
  · induction ms generalizing s with
    | nil => exact hinv
    | cons m ms ih => exact ih (ValidateMessage c s m).2 (ValidateMessage_validated c s m hinv)

/-- C11 at a concrete input: from the empty sample service, voter `[1]` votes for
block `[11]`, voter `[2]` for the unknown block `[99]` and voter `[3]` for block
`[13]`, which does not descend from head. -/
theorem C11_votes_validated_before_insertion_witness :
    VotesValidated sampleCollaborators
      (runMessages sampleCollaborators sampleService
        [sampleMessage 0 [1] [11] 1, sampleMessage 0 [2] [99] 9,
          sampleMessage 0 [3] [13] 3]) :=
  (C11_votes_validated_before_insertion sampleCollaborators sampleService
    [sampleMessage 0 [1] [11] 1, sampleMessage 0 [2] [99] 9, sampleMessage 0 [3] [13] 3]
    (fun _ _ h => by cases h)).2.2

/-- C12, refuted as stated. Voter `[2]` has no entry in either map; `a` is a vote
for the unknown block `[99]` and `b` a vote for the valid block `[12]`, both
validly signed for the current set. Processing `a` then `b` rejects `a` and
accepts `b`: the voter ends in `votes` with no entry in `equivocations`, while
processing `b` then `a` ends with the voter flagged. -/
theorem C12_symmetry_counterexample :
    SignedByVoter sampleCollaborators sampleService (sampleMessage 0 [2] [99] 9) [2] [2]
        { key := [2], id := 1 } (sampleEncode (signedFullVote (sampleMessage 0 [2] [99] 9))) ∧
      SignedByVoter sampleCollaborators sampleService (sampleMessage 0 [2] [12] 2) [2] [2]
        { key := [2], id := 1 } (sampleEncode (signedFullVote (sampleMessage 0 [2] [12] 2))) ∧
      NewVote [99] 9 ≠ NewVote [12] 2 ∧
      sampleService.votes [2] = none ∧ sampleService.equivocations [2] = none ∧
      (runMessages sampleCollaborators sampleService
        [sampleMessage 0 [2] [99] 9, sampleMessage 0 [2] [12] 2]).votes [2] =
          some sampleVote12 ∧
      (runMessages sampleCollaborators sampleService
        [sampleMessage 0 [2] [99] 9, sampleMessage 0 [2] [12] 2]).equivocations [2] = none ∧
      (runMessages sampleCollaborators sampleService
        [sampleMessage 0 [2] [12] 2, sampleMessage 0 [2] [99] 9]).votes [2] = none ∧
      (runMessages sampleCollaborators sampleService
        [sampleMessage 0 [2] [12] 2, sampleMessage 0 [2] [99] 9]).equivocations [2] =
          some [sampleVote12, NewVote [99] 9] :=
  ⟨sampleMessage_signed sampleService [2] [99] 9 (by decide),
    sampleMessage_signed sampleService [2] [12] 2 (by decide),
    by decide, by decide, by decide, by decide, by decide, by decide, by decide⟩

/-- C12, amended. For a voter `v` with no entry in `votes` or `equivocations` and two
distinct votes `a ≠ b`, each for an existing block that descends from head and each
carried by a validly signed message of `v` for the current set: processing `a`
then `b`, and processing `b` then `a`, both end with `v` absent from `votes` and
with `equivocations[v]` holding exactly the two votes, in the order received. -/
theorem C12_equivocation_symmetry (c : Collaborators) (s : Service) (ma mb : VoteMessage)
    (v : PublicKeyBytes)
    (ha : ValidBallot c s ma v) (hb : ValidBallot c s mb v)
    (hv : s.votes v = none) (he : s.equivocations v = none)
    (_hne : NewVote ma.message.hash ma.message.number ≠
      NewVote mb.message.hash mb.message.number) :
    (runMessages c s [ma, mb]).votes v = none ∧
      (runMessages c s [ma, mb]).equivocations v =
        some [NewVote ma.message.hash ma.message.number,
          NewVote mb.message.hash mb.message.number] ∧
      (runMessages c s [mb, ma]).votes v = none ∧
      (runMessages c s [mb, ma]).equivocations v =
        some [NewVote mb.message.hash mb.message.number,
          NewVote ma.message.hash ma.message.number] := by
  have hab := runMessages_of_ballots c s [(v, ma), (v, mb)] (by
    intro b hmem
    simp at hmem
    rcases hmem with rfl | rfl
    · exact ha
    · exact hb)
  have hba := runMessages_of_ballots c s [(v, mb), (v, ma)] (by
    intro b hmem
    simp at hmem
    rcases hmem with rfl | rfl
    · exact hb
    · exact ha)
  simp only [ballotMessages, List.map_cons, List.map_nil, List.foldl_cons, List.foldl_nil]
    at hab hba
  rw [hab, hba]
  simp [recordVote_votes, recordVote_equivocations, hv, he]

/-- C12, amended, at a concrete input: voter `[2]` votes for the blocks `[11]` and
`[12]`. -/
theorem C12_equivocation_symmetry_witness :
    (runMessages sampleCollaborators sampleService
        [sampleMessage 0 [2] [11] 1, sampleMessage 0 [2] [12] 2]).votes [2] = none ∧
      (runMessages sampleCollaborators sampleService
        [sampleMessage 0 [2] [11] 1, sampleMessage 0 [2] [12] 2]).equivocations [2] =
          some [NewVote [11] 1, NewVote [12] 2] ∧
      (runMessages sampleCollaborators sampleService
        [sampleMessage 0 [2] [12] 2, sampleMessage 0 [2] [11] 1]).votes [2] = none ∧
      (runMessages sampleCollaborators sampleService
        [sampleMessage 0 [2] [12] 2, sampleMessage 0 [2] [11] 1]).equivocations [2] =
          some [NewVote [12] 2, NewVote [11] 1] :=
  C12_equivocation_symmetry sampleCollaborators sampleService (sampleMessage 0 [2] [11] 1)
    (sampleMessage 0 [2] [12] 2) [2]
    ⟨⟨_, _, _, sampleMessage_signed sampleService [2] [11] 1 (by decide)⟩, by decide, by decide⟩
    ⟨⟨_, _, _, sampleMessage_signed sampleService [2] [12] 2 (by decide)⟩, by decide, by decide⟩
    (by decide) (by decide) (by decide)

/-- C13. Permutation invariance. For fixed collaborators and a fixed start state,
and a list of validly signed messages for the current set from pairwise distinct
voters, each for an existing block that descends from head: processing the
messages in any permuted order leaves identical `votes` and `equivocations`
maps. -/
theorem C13_permutation_invariance (c : Collaborators) (s : Service)
    (bs bs2 : List (PublicKeyBytes × VoteMessage))
    (hvalid : ∀ b ∈ bs, ValidBallot c s b.2 b.1)
    (hdistinct : (bs.map Prod.fst).Nodup)
    (hperm : bs.Perm bs2) :
    (runMessages c s (ballotMessages bs)).votes =
        (runMessages c s (ballotMessages bs2)).votes ∧
      (runMessages c s (ballotMessages bs)).equivocations =
        (runMessages c s (ballotMessages bs2)).equivocations := by
  have hvalid2 : ∀ b ∈ bs2, ValidBallot c s b.2 b.1 :=
    fun b hb => hvalid b (hperm.symm.subset hb)
  rw [runMessages_of_ballots c s bs hvalid, runMessages_of_ballots c s bs2 hvalid2,
    foldl_recordVote_perm bs bs2 hperm hdistinct s]
  exact ⟨rfl, rfl⟩

/-- C13 at a concrete input: voter `[1]` votes for block `[11]` and voter `[2]` for
block `[12]`, in both orders, starting from a service in which voter `[1]` already
holds a vote. -/
theorem C13_permutation_invariance_witness :
    (runMessages sampleCollaborators sampleServiceVoted
        [sampleMessage 0 [1] [11] 1, sampleMessage 0 [2] [12] 2]).votes =
        (runMessages sampleCollaborators sampleServiceVoted
          [sampleMessage 0 [2] [12] 2, sampleMessage 0 [1] [11] 1]).votes ∧
      (runMessages sampleCollaborators sampleServiceVoted
        [sampleMessage 0 [1] [11] 1, sampleMessage 0 [2] [12] 2]).equivocations =
        (runMessages sampleCollaborators sampleServiceVoted
          [sampleMessage 0 [2] [12] 2, sampleMessage 0 [1] [11] 1]).equivocations :=
  C13_permutation_invariance sampleCollaborators sampleServiceVoted
    [([1], sampleMessage 0 [1] [11] 1), ([2], sampleMessage 0 [2] [12] 2)]
    [([2], sampleMessage 0 [2] [12] 2), ([1], sampleMessage 0 [1] [11] 1)]
    (by
      intro b hb
      simp at hb
      rcases hb with rfl | rfl
      · exact ⟨⟨_, _, _, sampleMessage_signed sampleServiceVoted [1] [11] 1 (by decide)⟩,
          by decide, by decide⟩
      · exact ⟨⟨_, _, _, sampleMessage_signed sampleServiceVoted [2] [12] 2 (by decide)⟩,
          by decide, by decide⟩)
    (by decide) (List.Perm.swap _ _ _)

/-- C14, the code at the failing input. From the empty sample service, voter `[1]`
sends a validly signed prevote for block `[11]`, which is accepted, and then a
validly signed precommit of the same round and set for the different valid block
`[12]`: the second call returns `ErrEquivocation`, removes the voter from `votes`
and records both votes in `equivocations`. -/
theorem C14_cross_subround_vote_flagged :
    validateMessageSignature sampleCollaborators [1]
        (sampleStageMessage Subround.prevote 1 0 [1] [11] 1) = .ok () ∧
      validateMessageSignature sampleCollaborators [1]
        (sampleStageMessage Subround.precommit 1 0 [1] [12] 2) = .ok () ∧
      (ValidateMessage sampleCollaborators sampleService
        (sampleStageMessage Subround.prevote 1 0 [1] [11] 1)).1 = .ok sampleVote11 ∧
      (ValidateMessage sampleCollaborators
        (ValidateMessage sampleCollaborators sampleService
          (sampleStageMessage Subround.prevote 1 0 [1] [11] 1)).2
        (sampleStageMessage Subround.precommit 1 0 [1] [12] 2)).1 =
          .error GoError.ErrEquivocation ∧
      (ValidateMessage sampleCollaborators
        (ValidateMessage sampleCollaborators sampleService
          (sampleStageMessage Subround.prevote 1 0 [1] [11] 1)).2
        (sampleStageMessage Subround.precommit 1 0 [1] [12] 2)).2.votes [1] = none ∧
      (ValidateMessage sampleCollaborators
        (ValidateMessage sampleCollaborators sampleService
          (sampleStageMessage Subround.prevote 1 0 [1] [11] 1)).2
        (sampleStageMessage Subround.precommit 1 0 [1] [12] 2)).2.equivocations [1] =
          some [sampleVote11, sampleVote12] := by
  refine ⟨by decide, by decide, by decide, by decide, by decide, by decide⟩

/-- C15. Create/validate round trip. Let `kp` be a key pair whose `Sign` succeeds
with a signature that `Verify` accepts under `kp.Public` for every message, whose
public key is recovered from its bytes by `NewPublicKey` and whose signatures
already have the fixed size. For the message `m` that `CreateVoteMessage` returns,
the `FullVote` rebuilt from the fields of `m` is the one that was encoded and
signed, so `m` passes `validateMessageSignature` under its authority id and
carries the set id of the service; hence `ValidateMessage` on the same service
fails neither with `ErrInvalidSignature` nor with `ErrSetIDMismatch`, the voter
lookup and the block state returning neither of them. -/
theorem C15_created_message_validates (c : Collaborators) (a : Authoring) (s : Service)
    (header : Header) (kp : Keypair) (m : VoteMessage)
    (hsign : ∀ msg, ∃ sig, kp.Sign msg = .ok sig ∧ c.Verify kp.Public msg sig = .ok true)
    (hkey : c.NewPublicKey (c.AsBytes kp.Public) = .ok kp.Public)
    (hsigbytes : ∀ msg sig, kp.Sign msg = .ok sig → a.NewSignatureBytes sig = sig)
    (hcreate : CreateVoteMessage c a s header kp = .returned m) :
    signedFullVote m =
        { stage := s.subround
          vote := a.NewVoteFromHeader header
          round := s.state.round
          setID := s.state.setID } ∧
      c.NewPublicKey m.message.authorityID = .ok kp.Public ∧
      validateMessageSignature c kp.Public m = .ok () ∧
      m.setID = s.state.setID ∧
      (SentinelFree c →
        (ValidateMessage c s m).1 ≠ .error GoError.ErrInvalidSignature ∧
        (ValidateMessage c s m).1 ≠ .error GoError.ErrSetIDMismatch) := by
  cases henc : c.Encode
      { stage := s.subround
        vote := a.NewVoteFromHeader header
        round := s.state.round
        setID := s.state.setID } with
  | error e =>
    simp [CreateVoteMessage, henc] at hcreate
  | ok msg =>
    obtain ⟨sig, hsig, hver⟩ := hsign msg
    have hed : kp.PublicIsEd25519 = true := by
      cases hflag : kp.PublicIsEd25519 with
      | true => rfl
      | false => simp [CreateVoteMessage, henc, hsig, hflag] at hcreate
    have hm : CreateOutcome.returned
        { setID := s.state.setID
          round := s.state.round
          stage := s.subround
          message :=
            { hash := (a.NewVoteFromHeader header).hash
              number := (a.NewVoteFromHeader header).number
              signature := a.NewSignatureBytes sig
              authorityID := c.AsBytes kp.Public } } =
        .returned m := by
      rw [← hcreate]
      simp [CreateVoteMessage, henc, hsig, hed]
    have hm2 := (CreateOutcome.returned.inj hm).symm
    subst hm2
    have hfv : signedFullVote
        { setID := s.state.setID
          round := s.state.round
          stage := s.subround
          message :=
            { hash := (a.NewVoteFromHeader header).hash
              number := (a.NewVoteFromHeader header).number
              signature := a.NewSignatureBytes sig
              authorityID := c.AsBytes kp.Public } } =
        { stage := s.subround
          vote := a.NewVoteFromHeader header
          round := s.state.round
          setID := s.state.setID } := rfl
    have hvalid := validateMessageSignature_ok c kp.Public _ msg (by rw [hfv]; exact henc)
      (by rw [hsigbytes msg sig hsig]; exact hver)
    exact ⟨hfv, hkey, hvalid, rfl,
      fun hfree => ValidateMessage_after_checks c s _ kp.Public hkey hvalid rfl hfree⟩

/-- C15 at a concrete input: the sample service authors a vote for the header of
block `[12]` with the key pair of voter `[2]`, and validates it. -/
theorem C15_created_message_validates_witness :
    CreateVoteMessage sampleCollaborators sampleAuthoring sampleService sampleHeader12
        (sampleKeypair [2]) = .returned (sampleMessage 0 [2] [12] 12) ∧
      validateMessageSignature sampleCollaborators [2] (sampleMessage 0 [2] [12] 12) = .ok () ∧
      (ValidateMessage sampleCollaborators sampleService (sampleMessage 0 [2] [12] 12)).1 ≠
        .error GoError.ErrInvalidSignature ∧
      (ValidateMessage sampleCollaborators sampleService (sampleMessage 0 [2] [12] 12)).1 ≠
        .error GoError.ErrSetIDMismatch :=
  have h := C15_created_message_validates sampleCollaborators sampleAuthoring sampleService
    sampleHeader12 (sampleKeypair [2]) (sampleMessage 0 [2] [12] 12)
    (fun msg => ⟨[2] ++ msg, rfl, by simp [sampleCollaborators, sampleKeypair]⟩)
    (by decide) (fun _ _ _ => rfl) (by decide)
  ⟨by decide, h.2.2.1, (h.2.2.2.2 sampleCollaborators_sentinelFree).1,
    (h.2.2.2.2 sampleCollaborators_sentinelFree).2⟩

/-- C16, refuted as stated. For the sample sr25519 key pair of the key `[2]` and the
header of block `[12]`, the encoding of the `FullVote` succeeds and `kp.Sign`
succeeds on it, yet `CreateVoteMessage` returns neither a message nor an error:
the assertion `kp.Public().(*ed25519.PublicKey)` fails and the call panics. -/
theorem C16_non_ed25519_counterexample :
    sampleCollaborators.Encode
        { stage := sampleService.subround
          vote := sampleAuthoring.NewVoteFromHeader sampleHeader12
          round := sampleService.state.round
          setID := sampleService.state.setID } = .ok [0, 12, 1, 0, 12] ∧
      (sampleSr25519Keypair [2]).Sign [0, 12, 1, 0, 12] = .ok [2, 0, 12, 1, 0, 12] ∧
      (sampleSr25519Keypair [2]).PublicIsEd25519 = false ∧
      CreateVoteMessage sampleCollaborators sampleAuthoring sampleService sampleHeader12
        (sampleSr25519Keypair [2]) = .crashed := by
  refine ⟨by decide, by decide, by decide, by decide⟩

/-- C16, amended. For an ed25519 key pair `kp` (the assertion on `kp.Public()` holds)
whose signatures `NewSignatureBytes` keeps unchanged: when encoding and signing
succeed, `CreateVoteMessage(header, kp)` returns the message with the set id and
round of `s.state`, the stage `s.subround`, the hash and number of the vote built
by `NewVoteFromHeader`, the bytes of the public key of `kp` as authority id, and
as signature what `kp.Sign` returns for the encoding of `FullVote{s.subround,
vote, s.state.round, s.state.setID}`; when encoding fails, or signing fails, it
returns no message and that error. -/
theorem C16_CreateVoteMessage_result (c : Collaborators) (a : Authoring) (s : Service)
    (header : Header) (kp : Keypair)
    (hed : kp.PublicIsEd25519 = true)
    (hsigbytes : ∀ msg sig, kp.Sign msg = .ok sig → a.NewSignatureBytes sig = sig) :
    (∀ msg sig,
        c.Encode
            { stage := s.subround
              vote := a.NewVoteFromHeader header
              round := s.state.round
              setID := s.state.setID } = .ok msg →
        kp.Sign msg = .ok sig →
        CreateVoteMessage c a s header kp =
          .returned
            { setID := s.state.setID
              round := s.state.round
              stage := s.subround
              message :=
                { hash := (a.NewVoteFromHeader header).hash
                  number := (a.NewVoteFromHeader header).number
                  signature := sig
                  authorityID := c.AsBytes kp.Public } }) ∧
      (∀ e,
        c.Encode
            { stage := s.subround
              vote := a.NewVoteFromHeader header
              round := s.state.round
              setID := s.state.setID } = .error e →
        CreateVoteMessage c a s header kp = .failed e) ∧
      (∀ msg e,
        c.Encode
            { stage := s.subround
              vote := a.NewVoteFromHeader header
              round := s.state.round
              setID := s.state.setID } = .ok msg →
        kp.Sign msg = .error e →
        CreateVoteMessage c a s header kp = .failed e) := by
  refine ⟨?_, ?_, ?_⟩
  · intro msg sig henc hsig
    simp [CreateVoteMessage, henc, hsig, hed, hsigbytes msg sig hsig]
  · intro e henc
    simp [CreateVoteMessage, henc]
  · intro msg e henc hsig
    simp [CreateVoteMessage, henc, hsig]

/-- C16, amended, at a concrete input: the sample service authors a vote for the
header of block `[12]` with the ed25519 key pair of the key `[2]`. -/
theorem C16_CreateVoteMessage_result_witness :
    CreateVoteMessage sampleCollaborators sampleAuthoring sampleService sampleHeader12
        (sampleKeypair [2]) =
      .returned
        { setID := 0
          round := 1
          stage := Subround.prevote
          message :=
            { hash := [12]
              number := 12
              signature := [2, 0, 12, 1, 0, 12]
              authorityID := [2] } } :=
  (C16_CreateVoteMessage_result sampleCollaborators sampleAuthoring sampleService
    sampleHeader12 (sampleKeypair [2]) rfl (fun _ _ _ => rfl)).1
    [0, 12, 1, 0, 12] [2, 0, 12, 1, 0, 12] (by decide) (by decide)

/-- C19. The method `validateVote(v)` returns nil exactly when `HasHeader(v.hash)` and
`IsDescendantOf(s.head, v.hash)` both answer true without error. It returns
`ErrBlockDoesNotExist` when `HasHeader` answers false, whatever the ancestry query
would do; `ErrDescendantNotFound` when the block exists and `IsDescendantOf`
answers false; and the error of the chain state unchanged when `HasHeader` fails
(again whatever the ancestry query would do) or when `IsDescendantOf` fails. -/
theorem C19_validateVote_results (c : Collaborators) (s : Service) (v : Vote) :
    (validateVote c s v = .ok () ↔
        c.HasHeader v.hash = .ok true ∧ c.IsDescendantOf s.head v.hash = .ok true) ∧
      (c.HasHeader v.hash = .ok false →
        ∀ f, validateVote { c with IsDescendantOf := f } s v =
          .error GoError.ErrBlockDoesNotExist) ∧
      (c.HasHeader v.hash = .ok true → c.IsDescendantOf s.head v.hash = .ok false →
        validateVote c s v = .error GoError.ErrDescendantNotFound) ∧
      (∀ e, c.HasHeader v.hash = .error e →
        ∀ f, validateVote { c with IsDescendantOf := f } s v = .error e) ∧
      (∀ e, c.HasHeader v.hash = .ok true → c.IsDescendantOf s.head v.hash = .error e →
        validateVote c s v = .error e) := by
  refine ⟨validateVote_ok_iff c s v, ?_, ?_, ?_, ?_⟩
  · intro hh f
    simp [validateVote, hh]
  · intro hh hd
    simp [validateVote, hh, hd]
  · intro e hh f
    simp [validateVote, hh]
  · intro e hh hd
    simp [validateVote, hh, hd]

/-- C20. The round of a message is not compared with the round of the service. Two
messages with the same authority id, set id, stage, block hash and block number
but different rounds, each with a signature valid for its own fields, get the same
result from `ValidateMessage` and leave the same service. So when they are valid
ballots of a voter `v` without an entry in either map, both are inserted into
`votes`, although at least one of them carries a round other than
`s.state.round`. -/
theorem C20_round_not_compared (c : Collaborators) (s : Service) (m1 m2 : VoteMessage)
    (pk : PublicKey) (msg1 msg2 : List Nat)
    (hauth : m1.message.authorityID = m2.message.authorityID)
    (hset : m1.setID = m2.setID) (_hstage : m1.stage = m2.stage)
    (hhash : m1.message.hash = m2.message.hash)
    (hnum : m1.message.number = m2.message.number)
    (hround : m1.round ≠ m2.round)
    (hpk : c.NewPublicKey m1.message.authorityID = .ok pk)
    (henc1 : c.Encode (signedFullVote m1) = .ok msg1)
    (hver1 : c.Verify pk msg1 m1.message.signature = .ok true)
    (henc2 : c.Encode (signedFullVote m2) = .ok msg2)
    (hver2 : c.Verify pk msg2 m2.message.signature = .ok true) :
    ValidateMessage c s m1 = ValidateMessage c s m2 ∧
      ∀ v, ValidBallot c s m1 v → s.votes v = none → s.equivocations v = none →
        (m1.round ≠ s.state.round ∨ m2.round ≠ s.state.round) ∧
        (ValidateMessage c s m1).2.votes v = some (NewVote m1.message.hash m1.message.number) ∧
        (ValidateMessage c s m2).2.votes v =
          some (NewVote m1.message.hash m1.message.number) := by
  have hsig1 := validateMessageSignature_ok c pk m1 msg1 henc1 hver1
  have hsig2 := validateMessageSignature_ok c pk m2 msg2 henc2 hver2
  have hpk2 : c.NewPublicKey m2.message.authorityID = .ok pk := by rw [← hauth]; exact hpk
  have heq : ValidateMessage c s m1 = ValidateMessage c s m2 := by
    simp only [ValidateMessage, hpk, hpk2, hsig1, hsig2, hset, hhash, hnum]
  refine ⟨heq, ?_⟩
  intro v hballot hv he
  have hstep := ValidateMessage_of_ballot c s m1 v hballot
  have hvotes : (ValidateMessage c s m1).2.votes v =
      some (NewVote m1.message.hash m1.message.number) := by
    rw [hstep, recordVote_votes]
    simp [hv, he]
  refine ⟨?_, hvotes, by rw [← heq]; exact hvotes⟩
  by_cases h1 : m1.round = s.state.round
  · exact Or.inr (fun h2 => hround (h1.trans h2.symm))
  · exact Or.inl h1

/-- C20 at a concrete input: voter `[2]` signs a prevote for block `[12]` once for
round 1, the round of the sample service, and once for round 7. -/
theorem C20_round_not_compared_witness :
    ValidateMessage sampleCollaborators sampleService
        (sampleStageMessage Subround.prevote 1 0 [2] [12] 2) =
        ValidateMessage sampleCollaborators sampleService
          (sampleStageMessage Subround.prevote 7 0 [2] [12] 2) ∧
      (sampleStageMessage Subround.prevote 7 0 [2] [12] 2).round ≠ sampleService.state.round ∧
      (ValidateMessage sampleCollaborators sampleService
        (sampleStageMessage Subround.prevote 7 0 [2] [12] 2)).1 = .ok sampleVote12 ∧
      (ValidateMessage sampleCollaborators sampleService
        (sampleStageMessage Subround.prevote 7 0 [2] [12] 2)).2.votes [2] = some sampleVote12 :=
  have h := C20_round_not_compared sampleCollaborators sampleService
    (sampleStageMessage Subround.prevote 1 0 [2] [12] 2)
    (sampleStageMessage Subround.prevote 7 0 [2] [12] 2) [2]
    (sampleEncode (signedFullVote (sampleStageMessage Subround.prevote 1 0 [2] [12] 2)))
    (sampleEncode (signedFullVote (sampleStageMessage Subround.prevote 7 0 [2] [12] 2)))
    rfl rfl rfl rfl rfl (by decide) (by decide) rfl (by decide) rfl (by decide)
  ⟨h.1, by decide, by decide, by decide⟩

end Grandpa

namespace Keystore

/-- C17. The function `DetermineKeyType` returns `Ed25519Type` exactly for "gran",
`Sr25519Type` exactly for "babe", "acco", "aura", "imon", "audi" and "dumy", and
`UnknownType` for every other string, among them the empty string and other
spellings of those names. -/
theorem C17_DetermineKeyType_table :
    (∀ t, DetermineKeyType t = KeyType.Ed25519Type ↔ t = "gran") ∧
      (∀ t, DetermineKeyType t = KeyType.Sr25519Type ↔
        t ∈ ["babe", "acco", "aura", "imon", "audi", "dumy"]) ∧
      (∀ t, DetermineKeyType t = KeyType.UnknownType ↔
        t ∉ ["gran", "babe", "acco", "aura", "imon", "audi", "dumy"]) ∧
      DetermineKeyType "" = KeyType.UnknownType ∧
      DetermineKeyType "Gran" = KeyType.UnknownType ∧
      DetermineKeyType "BABE" = KeyType.UnknownType ∧
      DetermineKeyType "gran " = KeyType.UnknownType ∧
      DetermineKeyType "ed25519" = KeyType.UnknownType := by
  refine ⟨?_, ?_, ?_, by decide, by decide, by decide, by decide, by decide⟩
  · intro t
    unfold DetermineKeyType
    split_ifs <;> simp_all
  · intro t
    unfold DetermineKeyType
    split_ifs <;> simp_all
  · intro t
    unfold DetermineKeyType
    split_ifs <;> simp_all

end Keystore

namespace Cmd

theorem byteOfInt_eq_four (b : Int) : byteOfInt b = 4 ↔ b % 256 = 4 := by
  unfold byteOfInt
  omega

theorem byteOfInt_gt_four (b : Int) : byteOfInt b > 4 ↔ ¬ b % 256 ≤ 4 := by
  unfold byteOfInt
  omega

/-- C23. In `setDotCoreConfig`, for a non-empty `--roles` value that `strconv.Atoi`
parses to the integer `n`, the decision is taken on `byte(n) = n mod 256`:
`Authority` becomes true exactly when `n mod 256 = 4` and false otherwise, and
`Roles` becomes `n mod 256` exactly when `n mod 256 ≤ 4` and keeps its value
otherwise; so a value parsing to 260 enables authority with `Roles = 4`. When the
flag is empty or does not parse, the configuration is left as it was. -/
theorem C23_roles_byte_truncation (Atoi : String → Except String Int) (roles : String)
    (cfg : CoreConfig) :
    (∀ n, roles ≠ "" → Atoi roles = .ok n →
        (setDotCoreConfig Atoi roles cfg).Authority = decide (n % 256 = 4) ∧
        (setDotCoreConfig Atoi roles cfg).Roles =
          if n % 256 ≤ 4 then (n % 256).toNat else cfg.Roles) ∧
      (roles ≠ "" → Atoi roles = .ok 260 →
        setDotCoreConfig Atoi roles cfg = { Authority := true, Roles := 4 }) ∧
      (roles = "" → setDotCoreConfig Atoi roles cfg = cfg) ∧
      (∀ e, Atoi roles = .error e → setDotCoreConfig Atoi roles cfg = cfg) := by
  refine ⟨?_, ?_, ?_, ?_⟩
  · intro n hne hn
    by_cases h4 : byteOfInt n = 4
    · have h4i := (byteOfInt_eq_four n).1 h4
      have hle : n % 256 ≤ 4 := by omega
      simp [setDotCoreConfig, hne, hn, h4, h4i, byteOfInt]
    · have h4i : ¬ n % 256 = 4 := fun h => h4 ((byteOfInt_eq_four n).2 h)
      by_cases hgt : byteOfInt n > 4
      · have hle := (byteOfInt_gt_four n).1 hgt
        simp [setDotCoreConfig, hne, hn, h4, h4i, hgt, hle]
      · have hle : n % 256 ≤ 4 := by
          by_contra hc
          exact hgt ((byteOfInt_gt_four n).2 hc)
        simp only [setDotCoreConfig, hn, h4, hgt, hle, h4i]
        simp [hne, byteOfInt]
  · intro hne hn
    simp [setDotCoreConfig, hne, hn, byteOfInt]
  · intro he
    simp [setDotCoreConfig, he]
  · intro e he
    simp [setDotCoreConfig, he]

/-- The function `setDotCoreConfig` on the sample parser: 4 and -252 enable
authority with `Roles = 4`, 1 sets `Roles = 1` without authority, 7 only disables
authority, an unparsable value changes nothing. -/
theorem setDotCoreConfig_samples :
    setDotCoreConfig sampleAtoi "4" { Authority := false, Roles := 9 } =
        { Authority := true, Roles := 4 } ∧
      setDotCoreConfig sampleAtoi "-252" { Authority := false, Roles := 9 } =
        { Authority := true, Roles := 4 } ∧
      setDotCoreConfig sampleAtoi "1" { Authority := true, Roles := 9 } =
        { Authority := false, Roles := 1 } ∧
      setDotCoreConfig sampleAtoi "7" { Authority := true, Roles := 9 } =
        { Authority := false, Roles := 9 } ∧
      setDotCoreConfig sampleAtoi "four" { Authority := true, Roles := 9 } =
        { Authority := true, Roles := 9 } := by
  refine ⟨by decide, by decide, by decide, by decide, by decide⟩

end Cmd

namespace Keystore

/-- The index expression fails exactly outside the positions of the list. -/
theorem goIndex_eq_none {α : Type} (xs : List α) (i : Int) :
    goIndex xs i = none ↔ i < 0 ∨ (xs.length : Int) ≤ i := by
  unfold goIndex
  by_cases h : i < 0
  · simp [h]
  · simp only [h, if_false, false_or]
    rw [List.getElem?_eq_none_iff]
    omega

/-- A negative index passes the bound check of the loop and stops it with a
panic at `keyFiles[idx]`. -/
theorem unlockLoop_negative (d : Helpers) (keyDir : String) (keyFiles passwords : List String)
    (i : Nat) (idx : Int) (rest : List Int) (ks : List Keypair) (hneg : idx < 0) :
    unlockLoop d keyDir keyFiles passwords i (idx :: rest) ks =
      (.crashed "index out of range", ks) := by
  have hlt : ¬ idx ≥ (keyFiles.length : Int) := by omega
  have hnone : goIndex keyFiles idx = none := (goIndex_eq_none keyFiles idx).2 (Or.inl hneg)
  simp [unlockLoop, hlt, hnone]

/-- An index at or beyond the number of key files is rejected with the error. -/
theorem unlockLoop_too_large (d : Helpers) (keyDir : String) (keyFiles passwords : List String)
    (i : Nat) (idx : Int) (rest : List Int) (ks : List Keypair)
    (hge : idx ≥ (keyFiles.length : Int)) :
    unlockLoop d keyDir keyFiles passwords i (idx :: rest) ks =
      (.failed ("invalid account index: " ++ toString idx), ks) := by
  simp [unlockLoop, hge]

/-- With as many passwords as indices and no negative index, the loop never
panics: `passwords[i]` and `keyFiles[idx]` are evaluated within bounds. -/
theorem unlockLoop_no_crash (d : Helpers) (keyDir : String) (keyFiles passwords : List String)
    (i : Nat) (indices : List Int) (ks : List Keypair)
    (hlen : passwords.length = i + indices.length) (hpos : ∀ idx ∈ indices, 0 ≤ idx)
    (what : String) :
    (unlockLoop d keyDir keyFiles passwords i indices ks).1 ≠ .crashed what := by
  induction indices generalizing i ks with
  | nil => simp [unlockLoop]
  | cons idx rest ih =>
    have h0 : 0 ≤ idx := hpos idx (List.mem_cons_self _ _)
    simp only [List.length_cons] at hlen
    unfold unlockLoop
    by_cases hge : idx ≥ (keyFiles.length : Int)
    · simp [hge]
    · simp only [hge, if_false]
      cases hidx : goIndex keyFiles idx with
      | none =>
        have := (goIndex_eq_none keyFiles idx).1 hidx
        omega
      | some keyFile =>
        have hi : i < passwords.length := by omega
        simp only [List.getElem?_eq_getElem hi]
        cases hread : d.ReadFromFileAndDecrypt (keyDir ++ "/" ++ keyFile) passwords[i] with
        | error e => simp
        | ok priv =>
          cases hkp : PrivateKeyToKeypair d priv with
          | error e => simp [hkp]
          | ok kp =>
            cases hins : d.Insert ks kp with
            | error e => simp [hkp, hins]
            | ok ks2 =>
              simp only [hkp, hins]
              exact ih (i + 1) ks2 (by omega)
                (fun j hj => hpos j (List.mem_cons_of_mem _ hj))

/-- For a nil key pair and a `keytype` that is neither empty nor one of the three
scheme names, `GenerateKeypair` reaches `kp.Public()` with the key pair still nil
as soon as the key-store directory is found. -/
theorem GenerateKeypair_unknown_keytype (d : Helpers) (keytype basepath keyPath : String)
    (password : List Nat)
    (h0 : keytype ≠ "") (h1 : keytype ≠ "sr25519") (h2 : keytype ≠ "ed25519")
    (h3 : keytype ≠ "secp256k1") (hdir : d.KeystoreDir basepath = .ok keyPath) :
    GenerateKeypair d keytype none basepath password = .crashed "nil pointer dereference" := by
  simp [GenerateKeypair, generateIfNil, KeyType.name, h0, h1, h2, h3, hdir]

/-- C21, the code at the failing input. With one key file and one password, the
unlock string "-1" parses to the index -1, which passes both count checks and the
test `idx >= len(keyFiles)`; the index expression `keyFiles[idx]` then stops the
call with an index-out-of-range panic, and no "invalid account index" error is
returned. The index 5 is rejected with that error, and the index 0 unlocks the
key. -/
theorem C21_negative_index_not_rejected :
    UnlockKeys sampleHelpers [] "base" "-1" "pw" = (.crashed "index out of range", []) ∧
      UnlockKeys sampleHelpers [] "base" "5" "pw" =
        (.failed ("invalid account index: " ++ toString (5 : Int)), []) ∧
      (UnlockKeys sampleHelpers [] "base" "0" "pw").1 = .returned () := by
  refine ⟨?_, ?_, ?_⟩
  · simp [UnlockKeys, sampleHelpers, unlockLoop_negative]
  · simp [UnlockKeys, sampleHelpers, unlockLoop_too_large]
  · simp [UnlockKeys, sampleHelpers, unlockLoop, goIndex, PrivateKeyToKeypair]

/-- C22, the code at the failing input. For the keytype "foo" and a nil key pair,
`GenerateKeypair` generates nothing, returns no error, and calls `kp.Public()` on
the nil key pair, which stops the call with a nil-dereference panic; the same
happens through `ImportRawPrivateKey`, which passes its nil key pair on. For the
keytype "ed25519" a key pair is generated and the file path returned. -/
theorem C22_unknown_keytype_uses_nil_keypair :
    GenerateKeypair sampleHelpers "foo" none "base" [] = .crashed "nil pointer dereference" ∧
      ImportRawPrivateKey sampleHelpers "key" "foo" "base" [] =
        .crashed "nil pointer dereference" ∧
      GenerateKeypair sampleHelpers "ed25519" none "base" [] =
        .returned ("base/keystore" ++ "/" ++ "00" ++ ".key") := by
  refine ⟨?_, ?_, ?_⟩
  · exact GenerateKeypair_unknown_keytype sampleHelpers "foo" "base" "base/keystore" []
      (by decide) (by decide) (by decide) (by decide) (by decide)
  · have h := GenerateKeypair_unknown_keytype sampleHelpers "foo" "base" "base/keystore" []
      (by decide) (by decide) (by decide) (by decide) (by decide)
    have hne : ("foo" : String) ≠ "" := by decide
    have h1 : ("foo" : String) ≠ "sr25519" := by decide
    have h2 : ("foo" : String) ≠ "ed25519" := by decide
    have h3 : ("foo" : String) ≠ "secp256k1" := by decide
    simp only [ImportRawPrivateKey, KeyType.name, hne, h1, h2, h3, if_false]
    exact h
  · simp [GenerateKeypair, generateIfNil, KeyType.name, sampleHelpers]

end Keystore
